import Mathlib

/-!
# Verification of the bomber-man authoritative game server

A shallow embedding of the server's session and combat logic
(`server.js`): the map generator, the join handler, bomb placement,
the 100ms tick sweep, explosion resolution with directional blast
arms, chain-detonation callbacks, power-up collection, and session
termination.  JavaScript numbers standing for grid coordinates of
bombs/explosions are embedded as `Int`; player positions (which the
client may report fractionally) and speeds as `Rat`; timestamps as
`Int` milliseconds.  Randomness (`Math.random()`) is embedded as
oracle functions passed explicitly.  Fallible paths (JavaScript
property reads on `null`/`undefined` that would throw `TypeError`)
are embedded with `Except`.
-/

namespace Bomberman

/-- Grid cell values: `0` = empty, `1` = wall, `2` = destroyable block
(`generateMap`, server.js line 447). -/
inductive Cell
  | empty
  | wall
  | block
deriving DecidableEq, Repr

/-- The map is an array of rows of cells (`map[y][x]` in the source). -/
abbrev GameMap := List (List Cell)

/-- Read `map[y][x]`.  The source only reads in-bounds indices (guarded
by explicit bounds checks); out-of-range reads default to `empty`. -/
def cellAt (m : GameMap) (x y : Int) : Cell :=
  (m.getD y.toNat []).getD x.toNat Cell.empty

/-- Write `map[y][x] = c` (used for `map[y][x] = 0` when a block is
destroyed, server.js line 601). -/
def setCell (m : GameMap) (x y : Int) (c : Cell) : GameMap :=
  m.set y.toNat ((m.getD y.toNat []).set x.toNat c)

/-- The corner-exclusion list of `generateMap` (server.js lines 461-466):
the four spawn corners and their two orthogonal neighbours each. -/
def cornerExclusions (size : Nat) : List (Nat × Nat) :=
  [(0, 0), (1, 0), (0, 1),
   (size - 1, 0), (size - 2, 0), (size - 1, 1),
   (0, size - 1), (1, size - 1), (0, size - 2),
   (size - 1, size - 1), (size - 2, size - 1), (size - 1, size - 2)]

/-- `corners.some(c => c.x === x && c.y === y)` (server.js line 471). -/
def isCorner (size x y : Nat) : Bool :=
  (cornerExclusions size).any fun c => c.1 = x && c.2 = y

/-- The value `generateMap` leaves at cell `(x, y)`: the first pass
writes `0` everywhere, the second writes walls where `x` and `y` are
both odd, the third turns a still-empty non-corner cell into a block
when `Math.random() > 0.4` (embedded as the oracle `rand`). -/
def mapCell (size : Nat) (rand : Nat → Nat → Bool) (x y : Nat) : Cell :=
  if x % 2 = 1 ∧ y % 2 = 1 then Cell.wall
  else if isCorner size x y = false ∧ rand x y = true then Cell.block
  else Cell.empty

/-- `generateMap(size)` (server.js lines 440-480), with the per-cell
outcome of `Math.random() > 0.4` supplied by the oracle `rand`. -/
def generateMap (size : Nat) (rand : Nat → Nat → Bool) : GameMap :=
  (List.range size).map fun y => (List.range size).map fun x =>
    mapCell size rand x y

theorem cellAt_generateMap (size : Nat) (rand : Nat → Nat → Bool)
    (x y : Nat) (hx : x < size) (hy : y < size) :
    cellAt (generateMap size rand) (x : Int) (y : Int) =
      mapCell size rand x y := by
  unfold cellAt generateMap
  rw [Int.toNat_ofNat, Int.toNat_ofNat]
  simp only [List.getD_eq_getElem?_getD, List.getElem?_map,
    List.getElem?_range hy, List.getElem?_range hx,
    Option.map_some', Option.getD_some]

/-- C8: all twelve excluded corner cells come out `empty` for every
random outcome. -/
theorem corner_cells_empty (rand : Nat → Nat → Bool)
    (p : Nat × Nat) (hp : p ∈ cornerExclusions 15) :
    cellAt (generateMap 15 rand) (p.1 : Int) (p.2 : Int) = Cell.empty := by
  fin_cases hp <;>
  · rw [cellAt_generateMap 15 rand _ _ (by norm_num) (by norm_num)]
    simp [mapCell, isCorner, cornerExclusions]

theorem corner_cells_empty_witness :
    (1, 0) ∈ cornerExclusions 15 ∧
    cellAt (generateMap 15 (fun _ _ => true)) 1 0 = Cell.empty :=
  ⟨by decide, corner_cells_empty (fun _ _ => true) (1, 0) (by decide)⟩

/-- Power-up kinds (`'bombs' | 'flames' | 'speed'`, server.js line 605). -/
inductive PowerUpType
  | bombs
  | flames
  | speed
deriving DecidableEq, Repr

/-- A power-up in the world's power-up list (server.js lines 610-615).
Spawned at integer blast cells. -/
structure PowerUp where
  id : String
  type : PowerUpType
  x : Int
  y : Int
deriving DecidableEq, Repr

/-- A bomb in the world's bomb list (server.js lines 299-307).  The
client sends integer grid coordinates (`Math.floor` of the player's
position), so `x`/`y` are `Int`. -/
structure Bomb where
  id : String
  playerId : String
  x : Int
  y : Int
  placedAt : Int
  explosionRange : Int
  exploded : Bool
deriving DecidableEq, Repr

/-- A per-player combat state in `gameState.gameState.players`
(server.js lines 413-424).  Positions are `Rat` because
`player-move` may report fractional coordinates; `speed` is `Rat`
because the speed power-up adds `0.5`. -/
structure CombatPlayer where
  id : String
  nickname : String
  x : Rat
  y : Rat
  lives : Int
  maxBombs : Int
  explosionRange : Int
  speed : Rat
deriving DecidableEq, Repr

/-- The active world, `gameState.gameState` (server.js lines 395-401).
The players object is embedded as a list in key-insertion order. -/
structure World where
  map : GameMap
  players : List CombatPlayer
  bombs : List Bomb
  powerUps : List PowerUp
deriving DecidableEq, Repr

/-- The broadcasts the server can emit for the claims at hand.  The
`bombExploded` broadcast in the source carries `{explosions, gameState}`;
the id of the resolved bomb is recorded here to let the development
speak about which bomb's resolution produced the broadcast. -/
inductive Event
  | playerJoined (id nickname : String)
  | bombPlaced (b : Bomb)
  | bombExploded (bombId : String) (explosions : List (Int × Int))
  | playerEliminated (id : String)
  | playerMoved (id : String) (x y : Rat)
  | powerUpCollected (playerId : String) (t : PowerUpType)
  | gameUpdate
  | sessionTerminated
deriving DecidableEq, Repr

/-- `gameState.gameState.players[playerId]` : look up a combat state
by player id (first entry with that id). -/
def lookupPlayer (w : World) (pid : String) : Option CombatPlayer :=
  w.players.find? fun p => p.id == pid

/-! ## Connection registry and `handleJoin` (server.js lines 150-214) -/

/-- A registry `Player` record (server.js lines 186-193); the
connection handle and tab id are connection-level bookkeeping not
modelled here. -/
structure RegPlayer where
  id : String
  nickname : String
  ready : Bool
  character : Option String
deriving DecidableEq, Repr

/-- Outcome of a join attempt: either an `error{message}` reply or a
new registry record. -/
inductive JoinResult
  | rejected (message : String)
  | joined (p : RegPlayer)
deriving DecidableEq, Repr

/-- Whether a join outcome is a rejection. -/
def JoinResult.isRejected : JoinResult → Bool
  | .rejected _ => true
  | .joined _ => false

/-- JavaScript `String.prototype.trim()`: strip leading and trailing
whitespace. -/
def jsTrim (s : String) : String :=
  String.mk
    (((s.data.dropWhile Char.isWhitespace).reverse.dropWhile
      Char.isWhitespace).reverse)

/-- JavaScript `String.prototype.toLowerCase()` on the nicknames at
hand: lower-case every character. -/
def jsToLower (s : String) : String :=
  String.mk (s.data.map Char.toLower)

/-- `handleJoin` (server.js lines 150-214).  `freshId` stands for the
generated `player-${Date.now()}-${random}` id.  Rejections: room full
(≥ 4), game already started, or a nonempty trimmed nickname that
case-insensitively matches an existing player's nickname.  An empty
trimmed nickname falls back to `Player N`. -/
def handleJoin (players : List RegPlayer) (gameStarted : Bool)
    (nickname : String) (character : Option String) (freshId : String) :
    JoinResult × List RegPlayer :=
  if 4 ≤ players.length then (.rejected "Game is full", players)
  else if gameStarted then (.rejected "Game already started", players)
  else if jsTrim nickname ≠ "" ∧ (players.any fun p =>
      !(p.nickname == "") &&
        (jsToLower p.nickname == jsToLower (jsTrim nickname))) = true then
    (.rejected "Nickname already taken. Please choose a different one.",
     players)
  else
    let p : RegPlayer :=
      { id := freshId,
        nickname :=
          if jsTrim nickname = "" then
            "Player " ++ toString (players.length + 1)
          else jsTrim nickname,
        ready := false,
        character := character }
    (.joined p, players ++ [p])

/-- C9 counterexample: the server never bounds nickname length.  A
21-character nickname joins successfully and the stored nickname has
length 21, contradicting "at most 20 characters long". -/
theorem join_accepts_21_char_nickname :
    (handleJoin [] false "AAAAAAAAAAAAAAAAAAAAA" none "id1").1 =
      JoinResult.joined
        { id := "id1", nickname := "AAAAAAAAAAAAAAAAAAAAA",
          ready := false, character := none } ∧
    20 < ("AAAAAAAAAAAAAAAAAAAAA" : String).length := by
  constructor <;> decide

/-- C9 amended: a join is rejected exactly when the room holds ≥ 4
players, the match has started, or the (nonempty) trimmed nickname
case-insensitively collides with an existing nickname; a successful
join with a nonempty trimmed nickname stores exactly the trimmed
input (of unbounded length — the 20-character cap lives only in the
client's input field), case-insensitively distinct from every
existing nonempty nickname; an empty trimmed nickname is replaced by
a default `Player N` without any distinctness check. -/
theorem handleJoin_characterization (players : List RegPlayer)
    (gameStarted : Bool) (nickname : String) (character : Option String)
    (freshId : String) :
    (((handleJoin players gameStarted nickname character freshId).1.isRejected
        = true) ↔
      (4 ≤ players.length ∨ gameStarted = true ∨
        (jsTrim nickname ≠ "" ∧ ∃ p ∈ players, p.nickname ≠ "" ∧
          jsToLower p.nickname = jsToLower (jsTrim nickname)))) ∧
    (∀ p, (handleJoin players gameStarted nickname character freshId).1 =
        JoinResult.joined p →
      (handleJoin players gameStarted nickname character freshId).2 =
        players ++ [p] ∧
      (jsTrim nickname ≠ "" →
        p.nickname = jsTrim nickname ∧
        ∀ q ∈ players, q.nickname ≠ "" →
          jsToLower q.nickname ≠ jsToLower p.nickname) ∧
      (jsTrim nickname = "" →
        p.nickname = "Player " ++ toString (players.length + 1))) := by
  have hdup :
      ((players.any fun p =>
        !(p.nickname == "") &&
          (jsToLower p.nickname == jsToLower (jsTrim nickname))) = true) ↔
      ∃ p ∈ players, p.nickname ≠ "" ∧
        jsToLower p.nickname = jsToLower (jsTrim nickname) := by
    simp [List.any_eq_true, Bool.and_eq_true]
  by_cases h4 : 4 ≤ players.length
  · have hval : handleJoin players gameStarted nickname character freshId =
        (.rejected "Game is full", players) := by
      unfold handleJoin; rw [if_pos h4]
    rw [hval]
    exact ⟨iff_of_true rfl (Or.inl h4), fun p hp => by cases hp⟩
  · by_cases hs : gameStarted = true
    · have hval : handleJoin players gameStarted nickname character freshId =
          (.rejected "Game already started", players) := by
        unfold handleJoin; rw [if_neg h4, if_pos hs]
      rw [hval]
      exact ⟨iff_of_true rfl (Or.inr (Or.inl hs)), fun p hp => by cases hp⟩
    · by_cases hc : jsTrim nickname ≠ "" ∧ (players.any fun p =>
          !(p.nickname == "") &&
            (jsToLower p.nickname == jsToLower (jsTrim nickname))) = true
      · have hval : handleJoin players gameStarted nickname character freshId =
            (.rejected "Nickname already taken. Please choose a different one.",
             players) := by
          unfold handleJoin; rw [if_neg h4, if_neg hs, if_pos hc]
        rw [hval]
        exact ⟨iff_of_true rfl (Or.inr (Or.inr ⟨hc.1, hdup.mp hc.2⟩)),
          fun p hp => by cases hp⟩
      · have hval : handleJoin players gameStarted nickname character freshId =
            (.joined
              { id := freshId,
                nickname :=
                  if jsTrim nickname = "" then
                    "Player " ++ toString (players.length + 1)
                  else jsTrim nickname,
                ready := false, character := character },
             players ++
              [{ id := freshId,
                 nickname :=
                   if jsTrim nickname = "" then
                     "Player " ++ toString (players.length + 1)
                   else jsTrim nickname,
                 ready := false, character := character }]) := by
          unfold handleJoin; rw [if_neg h4, if_neg hs, if_neg hc]
        rw [hval]
        refine ⟨?_, ?_⟩
        · refine iff_of_false (by simp [JoinResult.isRejected]) ?_
          rintro (h | h | h)
          · exact h4 h
          · exact hs h
          · exact hc ⟨h.1, hdup.mpr h.2⟩
        · intro p hp
          have hpd := (JoinResult.joined.injEq _ _).mp hp
          subst hpd
          refine ⟨rfl, ?_, ?_⟩
          · intro hne
            refine ⟨by simp [if_neg hne], ?_⟩
            intro q hq hqne
            have hnoex : ¬ ∃ r ∈ players, r.nickname ≠ "" ∧
                jsToLower r.nickname = jsToLower (jsTrim nickname) := by
              intro hex
              exact hc ⟨hne, hdup.mpr hex⟩
            push_neg at hnoex
            have := hnoex q hq hqne
            simpa [if_neg hne] using this
          · intro heq
            simp [if_pos heq]

theorem handleJoin_characterization_witness :
    (handleJoin [] false " Ana " none "id1").2 =
      [{ id := "id1", nickname := "Ana", ready := false,
         character := none }] := by
  have h := (handleJoin_characterization [] false " Ana " none "id1").2
    { id := "id1", nickname := "Ana", ready := false, character := none }
    (by decide)
  simpa using h.1

/-! ## Power-up collection (`checkPowerUpCollection`, server.js 253-289) -/

/-- The `switch (powerUp.type)` of `checkPowerUpCollection` (server.js
lines 265-275): `player.maxBombs = (player.maxBombs || 1) + 1` and its
two siblings.  The JavaScript `|| 1` turns a `0` (falsy) stat into `1`
before incrementing. -/
def applyPowerUp (t : PowerUpType) (p : CombatPlayer) : CombatPlayer :=
  match t with
  | .bombs =>
      { p with maxBombs := (if p.maxBombs = 0 then 1 else p.maxBombs) + 1 }
  | .flames =>
      { p with explosionRange :=
          (if p.explosionRange = 0 then 1 else p.explosionRange) + 1 }
  | .speed =>
      { p with speed := (if p.speed = 0 then 1 else p.speed) + (1 / 2 : Rat) }

/-- Mutate the combat state stored under `playerId` (JavaScript object
update `players[playerId] = ...` in place). -/
def updatePlayerById (ps : List CombatPlayer) (pid : String)
    (f : CombatPlayer → CombatPlayer) : List CombatPlayer :=
  ps.map fun p => if p.id == pid then f p else p

/-- The power-up predicate of `findIndex` (server.js lines 256-258):
`Math.floor(pu.x) === Math.floor(x) && Math.floor(pu.y) === Math.floor(y)`
(power-ups are spawned at integer cells, so flooring them is the
identity). -/
def powerUpAtCell (x y : Rat) (pu : PowerUp) : Bool :=
  pu.x == ⌊x⌋ && pu.y == ⌊y⌋

/-- `checkPowerUpCollection(playerId, x, y)` (server.js lines 253-289):
find the first power-up on the moved-to cell; if one exists and the
player has a combat state, apply the stat bump, `splice` the power-up
out of the list, and broadcast `power-up-collected`. -/
def checkPowerUpCollection (w : World) (playerId : String) (x y : Rat) :
    World × List Event :=
  match w.powerUps.find? (powerUpAtCell x y) with
  | none => (w, [])
  | some powerUp =>
    match lookupPlayer w playerId with
    | none => (w, [])
    | some _ =>
      ({ w with
          players := updatePlayerById w.players playerId
            (applyPowerUp powerUp.type),
          powerUps := w.powerUps.eraseP (powerUpAtCell x y) },
       [Event.powerUpCollected playerId powerUp.type])

theorem find_eraseP_decomp {α : Type} (p : α → Bool) :
    ∀ (l : List α) (a : α), l.find? p = some a →
      ∃ l₁ l₂, l = l₁ ++ a :: l₂ ∧ (∀ b ∈ l₁, p b = false) ∧
        l.eraseP p = l₁ ++ l₂
  | [], a, h => by simp [List.find?] at h
  | x :: t, a, h => by
    by_cases hx : p x = true
    · rw [List.find?_cons_of_pos _ hx] at h
      have hxa : x = a := (Option.some.injEq _ _).mp h
      subst hxa
      refine ⟨[], t, by simp, ?_, ?_⟩
      · intro b hb
        cases hb
      · rw [List.eraseP_cons_of_pos hx]
        simp
    · have hx' : p x = false := by
        cases hpx : p x
        · rfl
        · exact absurd hpx hx
      rw [List.find?_cons_of_neg _ hx] at h
      obtain ⟨l₁, l₂, hl, hclean, herase⟩ := find_eraseP_decomp p t a h
      refine ⟨x :: l₁, l₂, by simp [hl], ?_, ?_⟩
      · intro b hb
        rcases List.mem_cons.mp hb with hb | hb
        · subst hb; exact hx'
        · exact hclean b hb
      · rw [List.eraseP_cons_of_neg hx, herase]
        simp

/-- C10: collecting a power-up removes exactly the first power-up on
the moved-to cell, changes only the matching stat of the collecting
player's combat state (`bombs` bumps `maxBombs` by 1, `flames` bumps
`explosionRange` by 1, `speed` bumps `speed` by 0.5), leaves that
player's lives and position untouched, leaves every other combat
state untouched, and leaves the map and bomb list untouched.  The
stat hypotheses record that reachable stats are nonzero (they start
at 1 and only grow), which makes the JavaScript `|| 1` a no-op. -/
theorem powerUp_collection_effect (w : World) (pid : String) (x y : Rat)
    (pu : PowerUp) (cs : CombatPlayer)
    (hfind : w.powerUps.find? (powerUpAtCell x y) = some pu)
    (hlook : lookupPlayer w pid = some cs)
    (hstats : ∀ q ∈ w.players, q.id = pid →
      q.maxBombs ≠ 0 ∧ q.explosionRange ≠ 0 ∧ q.speed ≠ 0) :
    (∃ l₁ l₂, w.powerUps = l₁ ++ pu :: l₂ ∧
      (∀ q ∈ l₁, powerUpAtCell x y q = false) ∧
      (checkPowerUpCollection w pid x y).1.powerUps = l₁ ++ l₂) ∧
    (checkPowerUpCollection w pid x y).1.map = w.map ∧
    (checkPowerUpCollection w pid x y).1.bombs = w.bombs ∧
    List.Forall₂ (fun q q' =>
        (q.id ≠ pid → q' = q) ∧
        (q.id = pid →
          q'.id = q.id ∧ q'.nickname = q.nickname ∧ q'.lives = q.lives ∧
          q'.x = q.x ∧ q'.y = q.y ∧
          (pu.type = PowerUpType.bombs →
            q'.maxBombs = q.maxBombs + 1 ∧
            q'.explosionRange = q.explosionRange ∧ q'.speed = q.speed) ∧
          (pu.type = PowerUpType.flames →
            q'.explosionRange = q.explosionRange + 1 ∧
            q'.maxBombs = q.maxBombs ∧ q'.speed = q.speed) ∧
          (pu.type = PowerUpType.speed →
            q'.speed = q.speed + (1 / 2 : Rat) ∧
            q'.maxBombs = q.maxBombs ∧
            q'.explosionRange = q.explosionRange)))
      w.players (checkPowerUpCollection w pid x y).1.players ∧
    (checkPowerUpCollection w pid x y).2 =
      [Event.powerUpCollected pid pu.type] := by
  have hval : checkPowerUpCollection w pid x y =
      ({ w with
          players := updatePlayerById w.players pid (applyPowerUp pu.type),
          powerUps := w.powerUps.eraseP (powerUpAtCell x y) },
       [Event.powerUpCollected pid pu.type]) := by
    unfold checkPowerUpCollection
    simp only [hfind, hlook]
  rw [hval]
  obtain ⟨l₁, l₂, hl, hclean, herase⟩ :=
    find_eraseP_decomp (powerUpAtCell x y) w.powerUps pu hfind
  refine ⟨⟨l₁, l₂, hl, hclean, herase⟩, rfl, rfl, ?_, rfl⟩
  unfold updatePlayerById
  rw [List.forall₂_map_right_iff]
  rw [List.forall₂_same]
  intro q hq
  by_cases hid : q.id = pid
  · have hbeq : (q.id == pid) = true := beq_iff_eq.mpr hid
    rw [if_pos hbeq]
    refine ⟨fun hni => absurd hid hni, fun _ => ?_⟩
    obtain ⟨hmb, her, hsp⟩ := hstats q hq hid
    cases pu.type <;>
      simp [applyPowerUp, if_neg hmb, if_neg her, if_neg hsp]
  · have hbeq : (q.id == pid) = false := beq_eq_false_iff_ne.mpr hid
    rw [if_neg (by simp [hbeq])]
    exact ⟨fun _ => rfl, fun h => absurd h hid⟩

theorem powerUp_collection_effect_witness :
    (checkPowerUpCollection
      { map := [],
        players := [{ id := "p1", nickname := "Ana", x := 2, y := 3,
                      lives := 3, maxBombs := 1, explosionRange := 1,
                      speed := 1 }],
        bombs := [],
        powerUps := [{ id := "pu1", type := PowerUpType.flames,
                       x := 2, y := 3 }] }
      "p1" 2 3).2 = [Event.powerUpCollected "p1" PowerUpType.flames] := by
  have h := powerUp_collection_effect
    { map := [],
      players := [{ id := "p1", nickname := "Ana", x := 2, y := 3,
                    lives := 3, maxBombs := 1, explosionRange := 1,
                    speed := 1 }],
      bombs := [],
      powerUps := [{ id := "pu1", type := PowerUpType.flames,
                     x := 2, y := 3 }] }
    "p1" 2 3
    { id := "pu1", type := PowerUpType.flames, x := 2, y := 3 }
    { id := "p1", nickname := "Ana", x := 2, y := 3, lives := 3,
      maxBombs := 1, explosionRange := 1, speed := 1 }
    (by decide) (by decide) (by decide)
  exact h.2.2.2.2

/-! ## Explosion resolution (`explodeBomb`, server.js lines 542-649)

The per-direction loop threads the mutable map (block destruction)
through the four direction arms; `blastArm` is its direct embedding.
Randomness of power-up spawning (`Math.random() < 0.3` plus the
uniform type choice, lines 604-606, and the generated id) is an oracle
`spawn` from the destroyed cell to an optional id/type pair. -/

/-- The unexploded bomb found at a blast cell, if any (`find` at
server.js lines 574-576), yielding the chain-detonation target ids. -/
def chainHits (bombs : List Bomb) (nx ny : Int) : List String :=
  match bombs.find? (fun b => b.x == nx && b.y == ny && !b.exploded) with
  | some b => [b.id]
  | none => []

/-- The power-up possibly spawned at a destroyed block cell
(server.js lines 604-616). -/
def spawnAt (spawn : Int × Int → Option (String × PowerUpType))
    (nx ny : Int) : List PowerUp :=
  match spawn (nx, ny) with
  | some (i, t) => [{ id := i, type := t, x := nx, y := ny }]
  | none => []

/-- The explosion loop body for one direction (server.js lines
560-620): walk outward one cell at a time; stop at the grid edge; stop
at a wall without including it; include a block, destroy it, roll a
power-up, and stop; include an empty cell, note any unexploded bomb on
it for chain detonation, and continue.  Returns the blast cells, the
updated map, the spawned power-ups, and the ids of bombs caught for
chain detonation, in traversal order. -/
def blastArm (bombs : List Bomb)
    (spawn : Int × Int → Option (String × PowerUpType)) :
    Nat → Int → Int → Int → Int → GameMap →
      List (Int × Int) × GameMap × List PowerUp × List String
  | 0, _, _, _, _, m => ([], m, [], [])
  | Nat.succ k, x, y, dx, dy, m =>
    if x + dx < 0 ∨ 15 ≤ x + dx ∨ y + dy < 0 ∨ 15 ≤ y + dy then
      ([], m, [], [])
    else if cellAt m (x + dx) (y + dy) = Cell.wall then ([], m, [], [])
    else if cellAt m (x + dx) (y + dy) = Cell.block then
      ([(x + dx, y + dy)], setCell m (x + dx) (y + dy) Cell.empty,
       spawnAt spawn (x + dx) (y + dy), chainHits bombs (x + dx) (y + dy))
    else
      ((x + dx, y + dy) ::
          (blastArm bombs spawn k (x + dx) (y + dy) dx dy m).1,
       (blastArm bombs spawn k (x + dx) (y + dy) dx dy m).2.1,
       (blastArm bombs spawn k (x + dx) (y + dy) dx dy m).2.2.1,
       chainHits bombs (x + dx) (y + dy) ++
          (blastArm bombs spawn k (x + dx) (y + dy) dx dy m).2.2.2)

/-- Modelled from the spec: the blast arm as §4.4 states it — computed
independently in each direction over the unchanged map, up to `r`
cells outward, a Wall excluded and terminal, a Block included and
terminal.  Compared against `blastArm` in the C3 theorem. -/
def specArm (m : GameMap) : Nat → Int → Int → Int → Int → List (Int × Int)
  | 0, _, _, _, _ => []
  | Nat.succ k, x, y, dx, dy =>
    if x + dx < 0 ∨ 15 ≤ x + dx ∨ y + dy < 0 ∨ 15 ≤ y + dy then []
    else if cellAt m (x + dx) (y + dy) = Cell.wall then []
    else if cellAt m (x + dx) (y + dy) = Cell.block then [(x + dx, y + dy)]
    else (x + dx, y + dy) :: specArm m k (x + dx) (y + dy) dx dy

/-- The open ray of cells an arm from `(x, y)` in direction
`(dx, dy)` can ever visit. -/
def ray (x y dx dy : Int) (c : Int × Int) : Prop :=
  ∃ i : Nat, 1 ≤ i ∧ c.1 = x + i * dx ∧ c.2 = y + i * dy

/-- In-bounds cells of the fixed 15×15 grid. -/
def inBounds (c : Int × Int) : Prop :=
  0 ≤ c.1 ∧ c.1 < 15 ∧ 0 ≤ c.2 ∧ c.2 < 15

theorem ray_shift (x y dx dy : Int) (c : Int × Int)
    (h : ray (x + dx) (y + dy) dx dy c) : ray x y dx dy c := by
  obtain ⟨i, hi, h1, h2⟩ := h
  exact ⟨i + 1, by omega, by push_cast; linarith, by push_cast; linarith⟩

theorem ray_head (x y dx dy : Int) : ray x y dx dy (x + dx, y + dy) :=
  ⟨1, le_refl 1, by simp, by simp⟩

theorem cellAt_setCell_self_empty (m : GameMap) (x y : Int) :
    cellAt (setCell m x y Cell.empty) x y = Cell.empty := by
  unfold cellAt setCell
  simp only [List.getD_eq_getElem?_getD]
  by_cases hy : y.toNat < m.length
  · rw [List.getElem?_set_eq_of_lt _ hy, Option.getD_some]
    by_cases hx : x.toNat < (m[y.toNat]?.getD []).length
    · rw [List.getElem?_set_eq_of_lt _ hx, Option.getD_some]
    · have hnone : ((m[y.toNat]?.getD []).set x.toNat
          Cell.empty)[x.toNat]? = none := by
        rw [List.getElem?_eq_none]
        simpa [List.length_set] using Nat.le_of_not_lt hx
      rw [hnone]
      rfl
  · rw [List.set_eq_of_length_le (Nat.le_of_not_lt hy),
      List.getElem?_eq_none (Nat.le_of_not_lt hy)]
    simp

theorem cellAt_setCell_ne (m : GameMap) (x y u v : Int) (c : Cell)
    (hu : 0 ≤ u) (hv : 0 ≤ v) (hx : 0 ≤ x) (hy : 0 ≤ y)
    (hne : (u, v) ≠ (x, y)) :
    cellAt (setCell m x y c) u v = cellAt m u v := by
  unfold cellAt setCell
  simp only [List.getD_eq_getElem?_getD]
  by_cases hvy : v.toNat = y.toNat
  · have hveq : v = y := by omega
    have huna : u.toNat ≠ x.toNat := by
      have hune : u ≠ x := fun h => hne (by rw [h, hveq])
      omega
    rw [hvy]
    by_cases hylen : y.toNat < m.length
    · rw [List.getElem?_set_eq_of_lt _ hylen, Option.getD_some,
        List.getElem?_set_ne (fun h => huna h.symm)]
    · rw [List.set_eq_of_length_le (Nat.le_of_not_lt hylen)]
  · rw [List.getElem?_set_ne (fun h => hvy h.symm)]

/-- The blast cells of one threaded arm agree with the spec's
independent arm over the same map: within one arm the map is only
mutated at the terminal block cell, after every read of that arm. -/
theorem blastArm_cells_eq_specArm (bombs : List Bomb)
    (spawn : Int × Int → Option (String × PowerUpType)) :
    ∀ (n : Nat) (x y dx dy : Int) (m : GameMap),
      (blastArm bombs spawn n x y dx dy m).1 = specArm m n x y dx dy
  | 0, _, _, _, _, _ => rfl
  | Nat.succ k, x, y, dx, dy, m => by
    simp only [blastArm, specArm]
    split_ifs with h1 h2 h3
    · rfl
    · rfl
    · rfl
    · rw [blastArm_cells_eq_specArm bombs spawn k (x + dx) (y + dy) dx dy m]

/-- The map coming out of one arm agrees with the incoming map on
every in-bounds cell off the arm's ray (blocks are only destroyed on
the ray). -/
theorem blastArm_map_locality (bombs : List Bomb)
    (spawn : Int × Int → Option (String × PowerUpType)) :
    ∀ (n : Nat) (x y dx dy : Int) (m : GameMap) (p : Int × Int),
      inBounds p → ¬ ray x y dx dy p →
      cellAt (blastArm bombs spawn n x y dx dy m).2.1 p.1 p.2 =
        cellAt m p.1 p.2
  | 0, _, _, _, _, _, _, _, _ => rfl
  | Nat.succ k, x, y, dx, dy, m, p, hin, hray => by
    simp only [blastArm]
    split_ifs with h1 h2 h3
    · rfl
    · rfl
    · have hb : ¬ (x + dx < 0 ∨ 15 ≤ x + dx ∨ y + dy < 0 ∨ 15 ≤ y + dy) := h1
      push_neg at hb
      exact cellAt_setCell_ne m (x + dx) (y + dy) p.1 p.2 Cell.empty
        hin.1 hin.2.2.1 hb.1 hb.2.2.1
        (fun h => hray (by
          have hp : p = (x + dx, y + dy) := by
            cases p
            simpa using h
          rw [hp]
          exact ray_head x y dx dy))
    · exact blastArm_map_locality bombs spawn k (x + dx) (y + dy) dx dy m p
        hin (fun h => hray (ray_shift x y dx dy p h))

/-- The spec arm only reads ray cells: two maps agreeing on in-bounds
ray cells produce the same arm. -/
theorem specArm_congr :
    ∀ (n : Nat) (x y dx dy : Int) (m₁ m₂ : GameMap),
      (∀ c : Int × Int, ray x y dx dy c → inBounds c →
        cellAt m₁ c.1 c.2 = cellAt m₂ c.1 c.2) →
      specArm m₁ n x y dx dy = specArm m₂ n x y dx dy
  | 0, _, _, _, _, _, _, _ => rfl
  | Nat.succ k, x, y, dx, dy, m₁, m₂, hag => by
    simp only [specArm]
    by_cases h1 : x + dx < 0 ∨ 15 ≤ x + dx ∨ y + dy < 0 ∨ 15 ≤ y + dy
    · rw [if_pos h1, if_pos h1]
    · have hb := h1
      push_neg at hb
      have hcell : cellAt m₁ (x + dx) (y + dy) =
          cellAt m₂ (x + dx) (y + dy) :=
        hag (x + dx, y + dy) (ray_head x y dx dy)
          ⟨hb.1, hb.2.1, hb.2.2.1, hb.2.2.2⟩
      rw [if_neg h1, if_neg h1, hcell]
      by_cases h2 : cellAt m₂ (x + dx) (y + dy) = Cell.wall
      · rw [if_pos h2, if_pos h2]
      · rw [if_neg h2, if_neg h2]
        by_cases h3 : cellAt m₂ (x + dx) (y + dy) = Cell.block
        · rw [if_pos h3, if_pos h3]
        · rw [if_neg h3, if_neg h3]
          rw [specArm_congr k (x + dx) (y + dy) dx dy m₁ m₂
            (fun c hc hcin => hag c (ray_shift x y dx dy c hc) hcin)]

/-- Every blast cell of an arm lies on the arm's ray and in bounds. -/
theorem blastArm_cells_ray (bombs : List Bomb)
    (spawn : Int × Int → Option (String × PowerUpType)) :
    ∀ (n : Nat) (x y dx dy : Int) (m : GameMap) (c : Int × Int),
      c ∈ (blastArm bombs spawn n x y dx dy m).1 →
      ray x y dx dy c ∧ inBounds c
  | 0, _, _, _, _, _, _, hc => by cases hc
  | Nat.succ k, x, y, dx, dy, m, c, hc => by
    simp only [blastArm] at hc
    split_ifs at hc with h1 h2 h3
    · cases hc
    · cases hc
    · have hb := h1
      push_neg at hb
      rcases List.mem_singleton.mp hc with hceq
      subst hceq
      exact ⟨ray_head x y dx dy, hb.1, hb.2.1, hb.2.2.1, hb.2.2.2⟩
    · rcases List.mem_cons.mp hc with hceq | hmem
      · have hb := h1
        push_neg at hb
        subst hceq
        exact ⟨ray_head x y dx dy, hb.1, hb.2.1, hb.2.2.1, hb.2.2.2⟩
      · obtain ⟨hr, hin⟩ := blastArm_cells_ray bombs spawn k
          (x + dx) (y + dy) dx dy m c hmem
        exact ⟨ray_shift x y dx dy c hr, hin⟩

/-- A blast cell that was a block in the incoming map is empty in the
arm's outgoing map. -/
theorem blastArm_destroys_blocks (bombs : List Bomb)
    (spawn : Int × Int → Option (String × PowerUpType)) :
    ∀ (n : Nat) (x y dx dy : Int) (m : GameMap) (c : Int × Int),
      c ∈ (blastArm bombs spawn n x y dx dy m).1 →
      cellAt m c.1 c.2 = Cell.block →
      cellAt (blastArm bombs spawn n x y dx dy m).2.1 c.1 c.2 = Cell.empty
  | 0, _, _, _, _, _, _, hc, _ => by cases hc
  | Nat.succ k, x, y, dx, dy, m, c, hc, hblock => by
    simp only [blastArm] at hc ⊢
    split_ifs at hc with h1 h2 h3
    · cases hc
    · cases hc
    · rw [if_neg h1, if_neg h2, if_pos h3]
      rcases List.mem_singleton.mp hc with hceq
      subst hceq
      exact cellAt_setCell_self_empty m (x + dx) (y + dy)
    · rw [if_neg h1, if_neg h2, if_neg h3]
      rcases List.mem_cons.mp hc with hceq | hmem
      · exfalso
        apply h3
        rw [← hblock, hceq]
      · exact blastArm_destroys_blocks bombs spawn k
          (x + dx) (y + dy) dx dy m c hmem hblock

/-- The four direction vectors (server.js lines 545-550), in source
order: up, right, down, left. -/
def directions : List (Int × Int) := [(0, -1), (1, 0), (0, 1), (-1, 0)]

/-- Rays of distinct axis directions from the same center never meet. -/
theorem ray_disjoint (x y : Int) (d1 d2 : Int × Int)
    (h1 : d1 ∈ directions) (h2 : d2 ∈ directions) (hne : d1 ≠ d2)
    (c : Int × Int) (hc1 : ray x y d1.1 d1.2 c)
    (hc2 : ray x y d2.1 d2.2 c) : False := by
  fin_cases h1 <;> fin_cases h2 <;> first
    | exact hne rfl
    | (obtain ⟨i, hi, hi1, hi2⟩ := hc1
       obtain ⟨j, hj, hj1, hj2⟩ := hc2
       simp only at hi1 hi2 hj1 hj2
       omega)

/-- The `directions.forEach` of `explodeBomb` (server.js lines
560-620): the four arms run in source order up, right, down, left,
each one reading and mutating the map left by the previous one. -/
def runArms (bombs : List Bomb)
    (spawn : Int × Int → Option (String × PowerUpType)) (r : Nat)
    (cx cy : Int) (m : GameMap) :
    List (Int × Int) × GameMap × List PowerUp × List String :=
  let a1 := blastArm bombs spawn r cx cy 0 (-1) m
  let a2 := blastArm bombs spawn r cx cy 1 0 a1.2.1
  let a3 := blastArm bombs spawn r cx cy 0 1 a2.2.1
  let a4 := blastArm bombs spawn r cx cy (-1) 0 a3.2.1
  (a1.1 ++ a2.1 ++ a3.1 ++ a4.1, a4.2.1,
   a1.2.2.1 ++ a2.2.2.1 ++ a3.2.2.1 ++ a4.2.2.1,
   a1.2.2.2 ++ a2.2.2.2 ++ a3.2.2.2 ++ a4.2.2.2)

/-- The player-damage pass of `explodeBomb` (server.js lines 622-641):
walk the combat states in key order; a player not yet in the damaged
set, with lives remaining, standing on a blast cell, loses one life
and enters the damaged set; a player hitting zero lives is appended
to the eliminated list (the `player-eliminated` broadcasts). -/
def damagePass (explosions : List (Int × Int)) :
    List CombatPlayer → List String →
      List CombatPlayer × List String × List String
  | [], dmg => ([], dmg, [])
  | p :: ps, dmg =>
    if ¬ dmg.contains p.id ∧ 0 < p.lives ∧
        (explosions.any fun e =>
          ((e.1 : Rat) == p.x) && ((e.2 : Rat) == p.y)) = true then
      ({ p with lives := p.lives - 1 } ::
          (damagePass explosions ps (p.id :: dmg)).1,
       (damagePass explosions ps (p.id :: dmg)).2.1,
       (if p.lives - 1 = 0 then [p.id] else []) ++
          (damagePass explosions ps (p.id :: dmg)).2.2)
    else
      (p :: (damagePass explosions ps dmg).1,
       (damagePass explosions ps dmg).2.1,
       (damagePass explosions ps dmg).2.2)

/-- Everything one `explodeBomb` call produces. -/
structure ExplodeOut where
  world : World
  explosions : List (Int × Int)
  damaged : List String
  chainIds : List String
  events : List Event
deriving DecidableEq, Repr

/-- `explodeBomb(bomb, damagedPlayersThisCycle)` (server.js lines
542-649): push the center cell, run the four arms (destroying blocks,
spawning power-ups, collecting chain targets), damage players on
blast cells, and broadcast the eliminations followed by the
`bomb-exploded` snapshot.  The bomb list itself is not mutated here —
chain targets are only scheduled. -/
def explodeBomb (spawn : Int × Int → Option (String × PowerUpType))
    (w : World) (b : Bomb) (damaged : List String) : ExplodeOut :=
  let a := runArms w.bombs spawn b.explosionRange.toNat b.x b.y w.map
  let d := damagePass ((b.x, b.y) :: a.1) w.players damaged
  { world := { w with
                 map := a.2.1
                 players := d.1
                 powerUps := w.powerUps ++ a.2.2.1 },
    explosions := (b.x, b.y) :: a.1,
    damaged := d.2.1,
    chainIds := a.2.2.2,
    events := d.2.2.map Event.playerEliminated ++
      [Event.bombExploded b.id ((b.x, b.y) :: a.1)] }

theorem runArms_spec (bombs : List Bomb)
    (spawn : Int × Int → Option (String × PowerUpType)) (r : Nat)
    (cx cy : Int) (m : GameMap) :
    (runArms bombs spawn r cx cy m).1 =
      specArm m r cx cy 0 (-1) ++ specArm m r cx cy 1 0 ++
      specArm m r cx cy 0 1 ++ specArm m r cx cy (-1) 0 ∧
    (∀ c ∈ (runArms bombs spawn r cx cy m).1,
      cellAt m c.1 c.2 = Cell.block →
      cellAt (runArms bombs spawn r cx cy m).2.1 c.1 c.2 = Cell.empty) := by
  simp only [runArms]
  set a1 := blastArm bombs spawn r cx cy 0 (-1) m with ha1
  set a2 := blastArm bombs spawn r cx cy 1 0 a1.2.1 with ha2
  set a3 := blastArm bombs spawn r cx cy 0 1 a2.2.1 with ha3
  set a4 := blastArm bombs spawn r cx cy (-1) 0 a3.2.1 with ha4
  have hnd : ∀ (d1 d2 : Int × Int), d1 ∈ directions → d2 ∈ directions →
      d1 ≠ d2 → ∀ c : Int × Int, ray cx cy d1.1 d1.2 c →
        ¬ ray cx cy d2.1 d2.2 c :=
    fun d1 d2 h1 h2 hne c hc1 hc2 =>
      ray_disjoint cx cy d1 d2 h1 h2 hne c hc1 hc2
  have hl1 : ∀ p : Int × Int, inBounds p → ¬ ray cx cy 0 (-1) p →
      cellAt a1.2.1 p.1 p.2 = cellAt m p.1 p.2 := by
    intro p hin hr
    rw [ha1]
    exact blastArm_map_locality bombs spawn r cx cy 0 (-1) m p hin hr
  have hl2 : ∀ p : Int × Int, inBounds p → ¬ ray cx cy 0 (-1) p →
      ¬ ray cx cy 1 0 p → cellAt a2.2.1 p.1 p.2 = cellAt m p.1 p.2 := by
    intro p hin hr1 hr2
    rw [ha2, blastArm_map_locality bombs spawn r cx cy 1 0 a1.2.1 p hin hr2]
    exact hl1 p hin hr1
  have hl3 : ∀ p : Int × Int, inBounds p → ¬ ray cx cy 0 (-1) p →
      ¬ ray cx cy 1 0 p → ¬ ray cx cy 0 1 p →
      cellAt a3.2.1 p.1 p.2 = cellAt m p.1 p.2 := by
    intro p hin hr1 hr2 hr3
    rw [ha3, blastArm_map_locality bombs spawn r cx cy 0 1 a2.2.1 p hin hr3]
    exact hl2 p hin hr1 hr2
  have hc1 : a1.1 = specArm m r cx cy 0 (-1) := by
    rw [ha1]
    exact blastArm_cells_eq_specArm bombs spawn r cx cy 0 (-1) m
  have hc2 : a2.1 = specArm m r cx cy 1 0 := by
    rw [ha2, blastArm_cells_eq_specArm bombs spawn r cx cy 1 0 a1.2.1]
    exact specArm_congr r cx cy 1 0 a1.2.1 m (fun c hc hin =>
      hl1 c hin (hnd (1, 0) (0, -1) (by decide) (by decide) (by decide) c hc))
  have hc3 : a3.1 = specArm m r cx cy 0 1 := by
    rw [ha3, blastArm_cells_eq_specArm bombs spawn r cx cy 0 1 a2.2.1]
    exact specArm_congr r cx cy 0 1 a2.2.1 m (fun c hc hin =>
      hl2 c hin (hnd (0, 1) (0, -1) (by decide) (by decide) (by decide) c hc)
        (hnd (0, 1) (1, 0) (by decide) (by decide) (by decide) c hc))
  have hc4 : a4.1 = specArm m r cx cy (-1) 0 := by
    rw [ha4, blastArm_cells_eq_specArm bombs spawn r cx cy (-1) 0 a3.2.1]
    exact specArm_congr r cx cy (-1) 0 a3.2.1 m (fun c hc hin =>
      hl3 c hin (hnd ((-1), 0) (0, -1) (by decide) (by decide) (by decide) c hc)
        (hnd ((-1), 0) (1, 0) (by decide) (by decide) (by decide) c hc)
        (hnd ((-1), 0) (0, 1) (by decide) (by decide) (by decide) c hc))
  refine ⟨by rw [hc1, hc2, hc3, hc4], ?_⟩
  intro c hc hblock
  rcases List.mem_append.mp hc with hc123 | hm4
  · rcases List.mem_append.mp hc123 with hc12 | hm3
    · rcases List.mem_append.mp hc12 with hm1 | hm2
      · obtain ⟨hray, hin⟩ :=
          blastArm_cells_ray bombs spawn r cx cy 0 (-1) m c (ha1 ▸ hm1)
        have he1 : cellAt a1.2.1 c.1 c.2 = Cell.empty := by
          rw [ha1]
          exact blastArm_destroys_blocks bombs spawn r cx cy 0 (-1) m c
            (ha1 ▸ hm1) hblock
        have he2 : cellAt a2.2.1 c.1 c.2 = Cell.empty := by
          rw [ha2, blastArm_map_locality bombs spawn r cx cy 1 0 a1.2.1 c hin
            (hnd (0, -1) (1, 0) (by decide) (by decide) (by decide) c hray)]
          exact he1
        have he3 : cellAt a3.2.1 c.1 c.2 = Cell.empty := by
          rw [ha3, blastArm_map_locality bombs spawn r cx cy 0 1 a2.2.1 c hin
            (hnd (0, -1) (0, 1) (by decide) (by decide) (by decide) c hray)]
          exact he2
        rw [ha4, blastArm_map_locality bombs spawn r cx cy (-1) 0 a3.2.1 c hin
          (hnd (0, -1) ((-1), 0) (by decide) (by decide) (by decide) c hray)]
        exact he3
      · obtain ⟨hray, hin⟩ :=
          blastArm_cells_ray bombs spawn r cx cy 1 0 a1.2.1 c (ha2 ▸ hm2)
        have hb1 : cellAt a1.2.1 c.1 c.2 = Cell.block := by
          rw [hl1 c hin
            (hnd (1, 0) (0, -1) (by decide) (by decide) (by decide) c hray)]
          exact hblock
        have he2 : cellAt a2.2.1 c.1 c.2 = Cell.empty := by
          rw [ha2]
          exact blastArm_destroys_blocks bombs spawn r cx cy 1 0 a1.2.1 c
            (ha2 ▸ hm2) hb1
        have he3 : cellAt a3.2.1 c.1 c.2 = Cell.empty := by
          rw [ha3, blastArm_map_locality bombs spawn r cx cy 0 1 a2.2.1 c hin
            (hnd (1, 0) (0, 1) (by decide) (by decide) (by decide) c hray)]
          exact he2
        rw [ha4, blastArm_map_locality bombs spawn r cx cy (-1) 0 a3.2.1 c hin
          (hnd (1, 0) ((-1), 0) (by decide) (by decide) (by decide) c hray)]
        exact he3
    · obtain ⟨hray, hin⟩ :=
        blastArm_cells_ray bombs spawn r cx cy 0 1 a2.2.1 c (ha3 ▸ hm3)
      have hb2 : cellAt a2.2.1 c.1 c.2 = Cell.block := by
        rw [hl2 c hin
          (hnd (0, 1) (0, -1) (by decide) (by decide) (by decide) c hray)
          (hnd (0, 1) (1, 0) (by decide) (by decide) (by decide) c hray)]
        exact hblock
      have he3 : cellAt a3.2.1 c.1 c.2 = Cell.empty := by
        rw [ha3]
        exact blastArm_destroys_blocks bombs spawn r cx cy 0 1 a2.2.1 c
          (ha3 ▸ hm3) hb2
      rw [ha4, blastArm_map_locality bombs spawn r cx cy (-1) 0 a3.2.1 c hin
        (hnd (0, 1) ((-1), 0) (by decide) (by decide) (by decide) c hray)]
      exact he3
  · obtain ⟨hray, hin⟩ :=
      blastArm_cells_ray bombs spawn r cx cy (-1) 0 a3.2.1 c (ha4 ▸ hm4)
    have hb3 : cellAt a3.2.1 c.1 c.2 = Cell.block := by
      rw [hl3 c hin
        (hnd ((-1), 0) (0, -1) (by decide) (by decide) (by decide) c hray)
        (hnd ((-1), 0) (1, 0) (by decide) (by decide) (by decide) c hray)
        (hnd ((-1), 0) (0, 1) (by decide) (by decide) (by decide) c hray)]
      exact hblock
    rw [ha4]
    exact blastArm_destroys_blocks bombs spawn r cx cy (-1) 0 a3.2.1 c
      (ha4 ▸ hm4) hb3

/-- C3: the blast of a resolved bomb is exactly its center cell plus,
independently per axis direction over the pre-blast map, the spec's
arm of up to `r` consecutive cells — a Wall excluding and stopping the
arm, a Block included but stopping it — and every Block cell in the
blast is Empty in the post-blast map. -/
theorem explodeBomb_blast_spec
    (spawn : Int × Int → Option (String × PowerUpType)) (w : World)
    (b : Bomb) (damaged : List String) :
    (explodeBomb spawn w b damaged).explosions =
      (b.x, b.y) ::
        (specArm w.map b.explosionRange.toNat b.x b.y 0 (-1) ++
         specArm w.map b.explosionRange.toNat b.x b.y 1 0 ++
         specArm w.map b.explosionRange.toNat b.x b.y 0 1 ++
         specArm w.map b.explosionRange.toNat b.x b.y (-1) 0) ∧
    (∀ c ∈ (explodeBomb spawn w b damaged).explosions.tail,
      cellAt w.map c.1 c.2 = Cell.block →
      cellAt (explodeBomb spawn w b damaged).world.map c.1 c.2 =
        Cell.empty) := by
  obtain ⟨hcells, hdestroy⟩ :=
    runArms_spec w.bombs spawn b.explosionRange.toNat b.x b.y w.map
  constructor
  · simp only [explodeBomb]
    rw [hcells]
  · intro c hc hblock
    simp only [explodeBomb] at hc ⊢
    exact hdestroy c hc hblock

theorem explodeBomb_blast_spec_witness :
    cellAt (explodeBomb (fun _ => none)
      { map := generateMap 15 (fun x y => x == 2 && y == 2),
        players := [], bombs := [], powerUps := [] }
      { id := "b1", playerId := "p", x := 2, y := 1, placedAt := 0,
        explosionRange := 1, exploded := false } []).world.map 2 2 =
      Cell.empty := by
  have h := explodeBomb_blast_spec (fun _ => none)
    { map := generateMap 15 (fun x y => x == 2 && y == 2),
      players := [], bombs := [], powerUps := [] }
    { id := "b1", playerId := "p", x := 2, y := 1, placedAt := 0,
      explosionRange := 1, exploded := false } []
  exact h.2 (2, 2) (by decide) (by decide)

/-! ## The 100ms world tick (`startGameLoop`, server.js lines 482-540) -/

/-- `bomb.exploded = true` on the list entry with the given id
(server.js lines 509 and 585; ids are unique by construction). -/
def markExploded (bombs : List Bomb) (bombId : String) : List Bomb :=
  bombs.map fun b => if b.id == bombId then { b with exploded := true } else b

/-- `!bomb.exploded && now - bomb.placedAt >= BOMB_EXPLODE_TIME`
(server.js line 508, `BOMB_EXPLODE_TIME = 3000`). -/
def dueAt (now : Int) (b : Bomb) : Bool :=
  !b.exploded && decide (3000 ≤ now - b.placedAt)

/-- The fuse sweep of one tick (server.js lines 503-513): process the
given bombs in order (the reverse-index loop), marking each exploded
before resolving it, threading the shared per-cycle damaged set. -/
def sweep (spawn : Int × Int → Option (String × PowerUpType)) :
    List Bomb → World → List String → World × List String × List Event
  | [], w, dmg => (w, dmg, [])
  | b :: rest, w, dmg =>
    ((sweep spawn rest
        (explodeBomb spawn { w with bombs := markExploded w.bombs b.id }
          { b with exploded := true } dmg).world
        (explodeBomb spawn { w with bombs := markExploded w.bombs b.id }
          { b with exploded := true } dmg).damaged).1,
     (sweep spawn rest
        (explodeBomb spawn { w with bombs := markExploded w.bombs b.id }
          { b with exploded := true } dmg).world
        (explodeBomb spawn { w with bombs := markExploded w.bombs b.id }
          { b with exploded := true } dmg).damaged).2.1,
     (explodeBomb spawn { w with bombs := markExploded w.bombs b.id }
        { b with exploded := true } dmg).events ++
       (sweep spawn rest
          (explodeBomb spawn { w with bombs := markExploded w.bombs b.id }
            { b with exploded := true } dmg).world
          (explodeBomb spawn { w with bombs := markExploded w.bombs b.id }
            { b with exploded := true } dmg).damaged).2.2)

/-- One interval body while the session is active (server.js lines
488-539): sweep the due bombs with a fresh shared damaged set, splice
the resolved bombs out of the list, and broadcast `game-update`. -/
def tick (spawn : Int × Int → Option (String × PowerUpType)) (now : Int)
    (w : World) : World × List Event :=
  ({ (sweep spawn ((w.bombs.filter (dueAt now)).reverse) w []).1 with
      bombs := (sweep spawn ((w.bombs.filter (dueAt now)).reverse) w
        []).1.bombs.filter (fun b => !b.exploded) },
   (sweep spawn ((w.bombs.filter (dueAt now)).reverse) w []).2.2 ++
     [Event.gameUpdate])

theorem forall2_trans {α β γ : Type} {R : α → β → Prop} {S : β → γ → Prop}
    {T : α → γ → Prop} (h : ∀ a b c, R a b → S b c → T a c) :
    ∀ {l₁ : List α} {l₂ : List β} {l₃ : List γ},
      List.Forall₂ R l₁ l₂ → List.Forall₂ S l₂ l₃ → List.Forall₂ T l₁ l₃ := by
  intro l₁ l₂ l₃ h12 h23
  induction h12 generalizing l₃ with
  | nil =>
    cases h23
    exact List.Forall₂.nil
  | cons hab htail ih =>
    cases h23 with
    | cons hbc htl =>
      exact List.Forall₂.cons (h _ _ _ hab hbc) (ih htl)

/-- Per-entry behaviour of one damage pass: the shared damaged set
only grows, an entry already in the set is untouched, and every entry
is either untouched or loses exactly one life while entering the set. -/
theorem damagePass_entries (e : List (Int × Int)) :
    ∀ (ps : List CombatPlayer) (dmg : List String),
      (∀ s ∈ dmg, s ∈ (damagePass e ps dmg).2.1) ∧
      List.Forall₂ (fun p q =>
          (p.id ∈ dmg → q = p) ∧
          (q = p ∨ (0 < p.lives ∧ q = { p with lives := p.lives - 1 } ∧
            p.id ∉ dmg ∧ p.id ∈ (damagePass e ps dmg).2.1)))
        ps (damagePass e ps dmg).1
  | [], dmg => by
    refine ⟨fun s hs => hs, ?_⟩
    simp [damagePass]
  | p :: ps, dmg => by
    by_cases hcond : ¬ dmg.contains p.id ∧ 0 < p.lives ∧
        (e.any fun c => ((c.1 : Rat) == p.x) && ((c.2 : Rat) == p.y)) = true
    · have hval1 : (damagePass e (p :: ps) dmg).1 =
          { p with lives := p.lives - 1 } ::
            (damagePass e ps (p.id :: dmg)).1 := by
        simp only [damagePass, if_pos hcond]
      have hval2 : (damagePass e (p :: ps) dmg).2.1 =
          (damagePass e ps (p.id :: dmg)).2.1 := by
        simp only [damagePass, if_pos hcond]
      obtain ⟨hgrow, hrel⟩ := damagePass_entries e ps (p.id :: dmg)
      have hpdmg : p.id ∉ dmg := by
        intro hmem
        exact hcond.1 (by simpa using hmem)
      refine ⟨?_, ?_⟩
      · intro s hs
        rw [hval2]
        exact hgrow s (List.mem_cons_of_mem _ hs)
      · rw [hval1, hval2]
        refine List.Forall₂.cons ⟨fun hmem => absurd hmem hpdmg, ?_⟩ ?_
        · exact Or.inr ⟨hcond.2.1, rfl, hpdmg,
            hgrow p.id (List.mem_cons_self _ _)⟩
        · refine hrel.imp ?_
          intro a b hab
          refine ⟨fun hmem => hab.1 (List.mem_cons_of_mem _ hmem), ?_⟩
          rcases hab.2 with hsame | ⟨hl, hq, hnin, hin⟩
          · exact Or.inl hsame
          · exact Or.inr ⟨hl, hq, fun hmem =>
              hnin (List.mem_cons_of_mem _ hmem), hin⟩
    · have hval1 : (damagePass e (p :: ps) dmg).1 =
          p :: (damagePass e ps dmg).1 := by
        simp only [damagePass, if_neg hcond]
      have hval2 : (damagePass e (p :: ps) dmg).2.1 =
          (damagePass e ps dmg).2.1 := by
        simp only [damagePass, if_neg hcond]
      obtain ⟨hgrow, hrel⟩ := damagePass_entries e ps dmg
      refine ⟨?_, ?_⟩
      · intro s hs
        rw [hval2]
        exact hgrow s hs
      · rw [hval1, hval2]
        exact List.Forall₂.cons ⟨fun _ => rfl, Or.inl rfl⟩ hrel

/-- The per-tick damage relation between a combat state at tick entry
and the same entry later in the tick: untouched, or down exactly one
life and recorded in the shared damaged set. -/
def DmgRel (dmg : List String) (p q : CombatPlayer) : Prop :=
  q = p ∨ (0 < p.lives ∧ q = { p with lives := p.lives - 1 } ∧ p.id ∈ dmg)

theorem sweep_invariant (spawn : Int × Int → Option (String × PowerUpType)) :
    ∀ (bl : List Bomb) (w : World) (dmg : List String)
      (ps : List CombatPlayer),
      List.Forall₂ (DmgRel dmg) ps w.players →
      (∀ s ∈ dmg, s ∈ (sweep spawn bl w dmg).2.1) ∧
      List.Forall₂ (DmgRel ((sweep spawn bl w dmg).2.1)) ps
        (sweep spawn bl w dmg).1.players
  | [], w, dmg, ps, hps => ⟨fun s hs => hs, hps⟩
  | b :: rest, w, dmg, ps, hps => by
    obtain ⟨hgrow, hrel⟩ := damagePass_entries
      ((b.x, b.y) ::
        (runArms (markExploded w.bombs b.id) spawn b.explosionRange.toNat
          b.x b.y w.map).1)
      w.players dmg
    have hstep : List.Forall₂
        (DmgRel (explodeBomb spawn { w with bombs := markExploded w.bombs b.id }
          { b with exploded := true } dmg).damaged)
        ps
        (explodeBomb spawn { w with bombs := markExploded w.bombs b.id }
          { b with exploded := true } dmg).world.players := by
      refine forall2_trans ?_ hps hrel
      intro p0 p q hp0 hpq
      rcases hpq.2 with hsame | ⟨hl, hq, hnin, hin⟩
      · subst hsame
        rcases hp0 with hp0 | ⟨hl0, hq0, hmem0⟩
        · exact Or.inl hp0
        · exact Or.inr ⟨hl0, hq0, hgrow _ hmem0⟩
      · rcases hp0 with hp0 | ⟨hl0, hq0, hmem0⟩
        · subst hp0
          exact Or.inr ⟨hl, hq, hin⟩
        · exfalso
          apply hnin
          have hid : p.id = p0.id := by rw [hq0]
          rw [hid]
          exact hmem0
    obtain ⟨hgrow2, hrel2⟩ := sweep_invariant spawn rest
      (explodeBomb spawn { w with bombs := markExploded w.bombs b.id }
        { b with exploded := true } dmg).world
      (explodeBomb spawn { w with bombs := markExploded w.bombs b.id }
        { b with exploded := true } dmg).damaged
      ps hstep
    refine ⟨?_, ?_⟩
    · intro s hs
      exact hgrow2 s (hgrow s hs)
    · exact hrel2

/-- C2: in a single tick each combat state loses at most one life in
total across all bombs whose fuses elapse in that tick (the shared
per-cycle damaged set), and within the resolution of any single bomb
each combat state loses at most one life even when several direction
arms of that bomb cover the player's cell. -/
theorem tick_damage_at_most_one
    (spawn : Int × Int → Option (String × PowerUpType)) (now : Int)
    (w : World) :
    (∀ (b : Bomb) (dmg : List String),
      List.Forall₂ (fun p q =>
          q.id = p.id ∧ p.lives - 1 ≤ q.lives ∧ q.lives ≤ p.lives)
        w.players (explodeBomb spawn w b dmg).world.players) ∧
    List.Forall₂ (fun p q =>
        q.id = p.id ∧ p.lives - 1 ≤ q.lives ∧ q.lives ≤ p.lives)
      w.players (tick spawn now w).1.players := by
  constructor
  · intro b dmg
    obtain ⟨_, hrel⟩ := damagePass_entries
      ((b.x, b.y) ::
        (runArms w.bombs spawn b.explosionRange.toNat b.x b.y w.map).1)
      w.players dmg
    refine hrel.imp ?_
    intro p q hpq
    rcases hpq.2 with hsame | ⟨hl, hq, _, _⟩
    · subst hsame
      exact ⟨rfl, by omega, le_refl _⟩
    · subst hq
      exact ⟨rfl, by simp, by simp⟩
  · have hinit : List.Forall₂ (DmgRel []) w.players w.players := by
      rw [List.forall₂_same]
      intro p _
      exact Or.inl rfl
    obtain ⟨_, hrel⟩ := sweep_invariant spawn
      ((w.bombs.filter (dueAt now)).reverse) w [] w.players hinit
    refine List.Forall₂.imp ?_ hrel
    intro p q hpq
    rcases hpq with hsame | ⟨hl, hq, _⟩
    · subst hsame
      exact ⟨rfl, by omega, le_refl _⟩
    · subst hq
      exact ⟨rfl, by simp, by simp⟩

/-! ## Bomb placement (`handlePlaceBomb`, server.js lines 291-319) -/

/-- A JavaScript runtime error (a property read on `null` or
`undefined`). -/
inductive JsError
  | typeError
deriving DecidableEq, Repr

/-- `handlePlaceBomb` (server.js lines 291-319): bail out silently
unless a match is active and the sender is a joined player; then
unconditionally create one bomb (id from `Date.now()` + randomness,
embedded as `bombId`), snapshotting the owner's `explosionRange || 1`,
append it to the world's bomb list, and broadcast `bomb-placed`.
There is no check against the owner's `maxBombs`. -/
def handlePlaceBomb (gameStarted : Bool) (gs : Option World)
    (joined : Bool) (pid : String) (x y : Int) (bombId : String)
    (now : Int) : Except JsError (Option World × List Event) :=
  match gs with
  | none => .ok (none, [])
  | some w =>
    if gameStarted = false then .ok (some w, [])
    else if joined = false then .ok (some w, [])
    else
      match lookupPlayer w pid with
      | none => .error .typeError
      | some cs =>
        .ok (some { w with bombs := w.bombs ++
            [{ id := bombId, playerId := pid, x := x, y := y,
               placedAt := now,
               explosionRange :=
                 if cs.explosionRange = 0 then 1 else cs.explosionRange,
               exploded := false }] },
          [Event.bombPlaced
            { id := bombId, playerId := pid, x := x, y := y,
              placedAt := now,
              explosionRange :=
                if cs.explosionRange = 0 then 1 else cs.explosionRange,
              exploded := false }])

/-- A world in which player `p1` already has one unexploded bomb and
`maxBombs = 1`: at their concurrent-bomb limit. -/
def exW6 : World :=
  { map := [],
    players := [{ id := "p1", nickname := "Ana", x := 2, y := 1,
                  lives := 3, maxBombs := 1, explosionRange := 1,
                  speed := 1 }],
    bombs := [{ id := "b1", playerId := "p1", x := 2, y := 1,
                placedAt := 0, explosionRange := 1, exploded := false }],
    powerUps := [] }

/-- C6 counterexample: with one unexploded own bomb outstanding and
`maxBombs = 1`, a further place-bomb intent is *not* ignored: the
server appends a second bomb and broadcasts `bomb-placed`. -/
theorem placeBomb_ignores_limit :
    exW6.bombs.countP (fun b => b.playerId == "p1" && !b.exploded) = 1 ∧
    (lookupPlayer exW6 "p1").map CombatPlayer.maxBombs = some 1 ∧
    handlePlaceBomb true (some exW6) true "p1" 5 5 "b2" 1000 =
      Except.ok (some { exW6 with bombs := exW6.bombs ++
          [{ id := "b2", playerId := "p1", x := 5, y := 5,
             placedAt := 1000, explosionRange := 1, exploded := false }] },
        [Event.bombPlaced
          { id := "b2", playerId := "p1", x := 5, y := 5,
            placedAt := 1000, explosionRange := 1, exploded := false }]) := by
  refine ⟨by decide, by decide, by rfl⟩

/-- C6 amended: the server enforces no concurrent-bomb limit (that
check lives only in the client's `placeBomb`); every place-bomb
intent from a joined player during an active match appends exactly
one bomb, with the owner's current `explosionRange` (`|| 1`)
snapshotted as its blast radius, and broadcasts it — regardless of
how many unexploded bombs the owner already has. -/
theorem placeBomb_appends_unconditionally (w : World) (pid : String)
    (x y : Int) (bombId : String) (now : Int) (cs : CombatPlayer)
    (hlook : lookupPlayer w pid = some cs) :
    handlePlaceBomb true (some w) true pid x y bombId now =
      Except.ok (some { w with bombs := w.bombs ++
          [{ id := bombId, playerId := pid, x := x, y := y,
             placedAt := now,
             explosionRange :=
               if cs.explosionRange = 0 then 1 else cs.explosionRange,
             exploded := false }] },
        [Event.bombPlaced
          { id := bombId, playerId := pid, x := x, y := y,
            placedAt := now,
            explosionRange :=
              if cs.explosionRange = 0 then 1 else cs.explosionRange,
            exploded := false }]) := by
  simp only [handlePlaceBomb, hlook]
  rfl

theorem placeBomb_appends_unconditionally_witness :
    handlePlaceBomb true (some exW6) true "p1" 3 1 "b9" 500 =
      Except.ok (some { exW6 with bombs := exW6.bombs ++
          [{ id := "b9", playerId := "p1", x := 3, y := 1,
             placedAt := 500, explosionRange := 1, exploded := false }] },
        [Event.bombPlaced
          { id := "b9", playerId := "p1", x := 3, y := 1,
            placedAt := 500, explosionRange := 1, exploded := false }]) := by
  have h := placeBomb_appends_unconditionally exW6 "p1" 3 1 "b9" 500
    { id := "p1", nickname := "Ana", x := 2, y := 1, lives := 3,
      maxBombs := 1, explosionRange := 1, speed := 1 } (by decide)
  simpa using h

/-! ## Module-level server state, timers, and session teardown -/

/-- The module-level mutable state: the registry and phase flags of
`gameState` (server.js lines 64-71) plus the three tracked timer
handles (lines 74-76).  `pendingChains` records the ids targeted by
300ms chain `setTimeout`s that are scheduled but not yet fired; the
source keeps no reference to these timers (line 579), so nothing can
cancel them. -/
structure ServerState where
  players : List RegPlayer
  gameStarted : Bool
  world : Option World
  gameLoopInterval : Bool
  waitingTimer : Bool
  countdownTimer : Bool
  pendingChains : List String
deriving Repr

/-- The `setInterval` body of `startGameLoop` (server.js lines
488-539): if the session is no longer active, clear the interval and
do nothing (the returned `Bool` is whether the interval keeps
running); otherwise run one world tick and broadcast. -/
def tickCallback (spawn : Int × Int → Option (String × PowerUpType))
    (now : Int) (s : ServerState) : ServerState × List Event × Bool :=
  match s.world with
  | none => ({ s with gameLoopInterval := false }, [], false)
  | some w =>
    if s.gameStarted = false then
      ({ s with gameLoopInterval := false }, [], false)
    else
      ({ s with world := some (tick spawn now w).1 },
       (tick spawn now w).2, true)

/-- `terminateGameSession` (server.js lines 651-684): clear the game
loop interval, the waiting timer, and the countdown timer, reset the
phase flags, discard the world, and broadcast `session-terminated`.
The pending chain `setTimeout`s are untouched — the source holds no
handle to them. -/
def terminateGameSession (s : ServerState) : ServerState × List Event :=
  ({ s with gameStarted := false
            world := none
            gameLoopInterval := false
            waitingTimer := false
            countdownTimer := false },
   [Event.sessionTerminated])

/-- The world-level effect of one 300ms chain-detonation callback
(server.js lines 579-595): re-find the target by id among unexploded
bombs; if gone, do nothing; otherwise mark it exploded, splice it out,
and resolve it with a fresh damaged set. -/
def worldChainFire (spawn : Int × Int → Option (String × PowerUpType))
    (w : World) (bombId : String) : World × List Event :=
  match w.bombs.find? (fun b => b.id == bombId && !b.exploded) with
  | none => (w, [])
  | some bl =>
    ((explodeBomb spawn
        { w with bombs := (markExploded w.bombs bombId).eraseP
                            (fun b2 => b2.id == bombId) }
        { bl with exploded := true } []).world,
     (explodeBomb spawn
        { w with bombs := (markExploded w.bombs bombId).eraseP
                            (fun b2 => b2.id == bombId) }
        { bl with exploded := true } []).events)

/-- The full chain-detonation `setTimeout` callback: its first action
is the read `gameState.gameState.bombs` (server.js line 581), which
throws a `TypeError` when the session has been reset
(`gameState.gameState === null`). -/
def chainCallback (spawn : Int × Int → Option (String × PowerUpType))
    (s : ServerState) (bombId : String) :
    Except JsError (ServerState × List Event) :=
  match s.world with
  | none => .error .typeError
  | some w =>
    .ok ({ s with world := some (worldChainFire spawn w bombId).1 },
      (worldChainFire spawn w bombId).2)

/-- Every broadcast of the fuse sweep is a `player-eliminated` or a
`bomb-exploded`. -/
theorem sweep_events_shape
    (spawn : Int × Int → Option (String × PowerUpType)) :
    ∀ (bl : List Bomb) (w : World) (dmg : List String),
      ∀ ev ∈ (sweep spawn bl w dmg).2.2,
        (∃ i, ev = Event.playerEliminated i) ∨
        (∃ i el, ev = Event.bombExploded i el)
  | [], _, _ => by
    intro ev hev
    simp [sweep] at hev
  | b :: rest, w, dmg => by
    intro ev hev
    simp only [sweep] at hev
    rcases List.mem_append.mp hev with hev1 | hev2
    · simp only [explodeBomb] at hev1
      rcases List.mem_append.mp hev1 with hel | hex
      · obtain ⟨i, _, hi⟩ := List.mem_map.mp hel
        exact Or.inl ⟨i, hi.symm⟩
      · rcases List.mem_singleton.mp hex with h
        exact Or.inr ⟨_, _, h⟩
    · exact sweep_events_shape spawn rest _ _ ev hev2

/-- A mid-match state: active session, running loop, one due bomb at
`(2,1)` where a one-life player stands, a second player far away. -/
def exW4 : World :=
  { map := generateMap 15 (fun _ _ => false),
    players := [{ id := "p1", nickname := "Ana", x := 2, y := 1,
                  lives := 1, maxBombs := 1, explosionRange := 1,
                  speed := 1 },
                { id := "p2", nickname := "Bo", x := 12, y := 12,
                  lives := 3, maxBombs := 1, explosionRange := 1,
                  speed := 1 }],
    bombs := [{ id := "b1", playerId := "p1", x := 2, y := 1,
                placedAt := 0, explosionRange := 1, exploded := false }],
    powerUps := [] }

def exS4 : ServerState :=
  { players := [], gameStarted := true, world := some exW4,
    gameLoopInterval := true, waitingTimer := false,
    countdownTimer := false, pendingChains := [] }

/-- C4 counterexample: a tick eliminates a player and leaves exactly
one combat state with positive lives, yet the interval keeps running,
the session stays active, and no winner is declared — the server has
no win-condition logic at all. -/
theorem tick_no_win_declaration :
    Event.playerEliminated "p1" ∈ (tickCallback (fun _ => none) 3000 exS4).2.1 ∧
    Option.map (fun w => w.players.countP (fun p => decide (0 < p.lives)))
      (tickCallback (fun _ => none) 3000 exS4).1.world = some 1 ∧
    (tickCallback (fun _ => none) 3000 exS4).2.2 = true ∧
    (tickCallback (fun _ => none) 3000 exS4).1.gameLoopInterval = true ∧
    (tickCallback (fun _ => none) 3000 exS4).1.gameStarted = true := by
  refine ⟨by decide, by decide, by decide, by decide, by decide⟩

/-- C4 amended: after any elimination the server does *not* end the
match: while the session is active every tick returns with the
interval still running, the session still active, the world updated —
and its only broadcasts are `player-eliminated`, `bomb-exploded`, and
`game-update`; no winner is ever declared server-side (the win screen
is computed by the client from `game-update` snapshots). -/
theorem tick_keeps_running
    (spawn : Int × Int → Option (String × PowerUpType)) (now : Int)
    (s : ServerState) (w : World) (hw : s.world = some w)
    (hg : s.gameStarted = true) :
    (tickCallback spawn now s).2.2 = true ∧
    (tickCallback spawn now s).1.gameStarted = true ∧
    (tickCallback spawn now s).1.gameLoopInterval = s.gameLoopInterval ∧
    (tickCallback spawn now s).1.world = some (tick spawn now w).1 ∧
    (∀ ev ∈ (tickCallback spawn now s).2.1,
      ev = Event.gameUpdate ∨ (∃ i, ev = Event.playerEliminated i) ∨
      (∃ i el, ev = Event.bombExploded i el)) := by
  simp only [tickCallback, hw, hg]
  refine ⟨rfl, by simp [hg], rfl, rfl, ?_⟩
  intro ev hev
  simp only [tick] at hev
  rcases List.mem_append.mp hev with hs | hg2
  · rcases sweep_events_shape spawn _ _ _ ev hs with h | h
    · exact Or.inr (Or.inl h)
    · exact Or.inr (Or.inr h)
  · exact Or.inl (List.mem_singleton.mp hg2)

theorem tick_keeps_running_witness :
    (tickCallback (fun _ => none) 3000 exS4).2.2 = true :=
  (tick_keeps_running (fun _ => none) 3000 exS4 exW4 rfl rfl).1

/-- An active session with a bomb in flight and one pending 300ms
chain callback targeting it. -/
def exS5 : ServerState :=
  { players := [], gameStarted := true,
    world := some
      { map := generateMap 15 (fun _ _ => false),
        players := [],
        bombs := [{ id := "b1", playerId := "p1", x := 2, y := 1,
                    placedAt := 0, explosionRange := 1,
                    exploded := false }],
        powerUps := [] },
    gameLoopInterval := true, waitingTimer := true,
    countdownTimer := false, pendingChains := ["b1"] }

/-- C5: session reset cancels the three tracked timers, but a pending
300ms chain-detonation callback is neither canceled (the source keeps
no handle to it) nor a harmless no-op: fired after the reset it
dereferences `gameState.gameState.bombs` with
`gameState.gameState === null` and raises a `TypeError`. -/
theorem chain_callback_throws_after_reset :
    (terminateGameSession exS5).1.world = none ∧
    (terminateGameSession exS5).1.gameLoopInterval = false ∧
    (terminateGameSession exS5).1.waitingTimer = false ∧
    (terminateGameSession exS5).1.countdownTimer = false ∧
    (terminateGameSession exS5).1.pendingChains = ["b1"] ∧
    chainCallback (fun _ => none) (terminateGameSession exS5).1 "b1" =
      Except.error JsError.typeError := by
  exact ⟨rfl, rfl, rfl, rfl, rfl, rfl⟩

/-! ## World event traces (moves, placements, ticks, chain firings) -/

/-- `handlePlayerMove` (server.js lines 229-251): update the mover's
position if they have a combat state, collect any power-up on the
landed cell, then broadcast `player-moved`. -/
def handlePlayerMove (w : World) (pid : String) (x y : Rat) :
    World × List Event :=
  match lookupPlayer w pid with
  | none => (w, [Event.playerMoved pid x y])
  | some _ =>
    ((checkPowerUpCollection
        { w with players := updatePlayerById w.players pid
                              (fun p => { p with x := x, y := y }) }
        pid x y).1,
     (checkPowerUpCollection
        { w with players := updatePlayerById w.players pid
                              (fun p => { p with x := x, y := y }) }
        pid x y).2 ++
       [Event.playerMoved pid x y])

/-- The four spawn corners (server.js lines 404-409, `GRID_SIZE` 15). -/
def corners15 : List (Int × Int) := [(1, 1), (13, 1), (1, 13), (13, 13)]

/-- `startGame`'s world construction (server.js lines 393-425): fresh
map, combat states at the corners — 3 lives, 1 max bomb, range 1,
speed 1 — in registry order (the registry holds at most four
players). -/
def initWorld (rand : Nat → Nat → Bool) (regs : List RegPlayer) : World :=
  { map := generateMap 15 rand,
    players := (regs.zip corners15).map fun rc =>
      { id := rc.1.id, nickname := rc.1.nickname,
        x := (rc.2.1 : Rat), y := (rc.2.2 : Rat),
        lives := 3, maxBombs := 1, explosionRange := 1, speed := 1 },
    bombs := [], powerUps := [] }

/-- The bomb ids carried by the `bomb-exploded` broadcasts of a log,
in broadcast order. -/
def resolvedIds : List Event → List String
  | [] => []
  | Event.bombExploded i _ :: rest => i :: resolvedIds rest
  | _ :: rest => resolvedIds rest

theorem resolvedIds_append :
    ∀ (l₁ l₂ : List Event),
      resolvedIds (l₁ ++ l₂) = resolvedIds l₁ ++ resolvedIds l₂
  | [], _ => rfl
  | ev :: rest, l₂ => by
    have ih := resolvedIds_append rest l₂
    cases ev <;> simp [resolvedIds, ih]

theorem resolvedIds_eliminated :
    ∀ l : List String, resolvedIds (l.map Event.playerEliminated) = []
  | [] => rfl
  | _ :: rest => resolvedIds_eliminated rest

/-- One resolution broadcasts exactly one `bomb-exploded`, carrying
the resolved bomb's id. -/
theorem explodeBomb_resolvedIds
    (spawn : Int × Int → Option (String × PowerUpType)) (w : World)
    (b : Bomb) (dmg : List String) :
    resolvedIds (explodeBomb spawn w b dmg).events = [b.id] := by
  simp only [explodeBomb]
  rw [resolvedIds_append, resolvedIds_eliminated]
  rfl

theorem sweep_resolvedIds
    (spawn : Int × Int → Option (String × PowerUpType)) :
    ∀ (bl : List Bomb) (w : World) (dmg : List String),
      resolvedIds (sweep spawn bl w dmg).2.2 = bl.map Bomb.id
  | [], _, _ => rfl
  | b :: rest, w, dmg => by
    simp only [sweep]
    rw [resolvedIds_append, explodeBomb_resolvedIds,
      sweep_resolvedIds spawn rest]
    rfl

/-- The resolutions of one tick are exactly the due bombs, in the
reverse-index processing order. -/
theorem tick_resolvedIds
    (spawn : Int × Int → Option (String × PowerUpType)) (now : Int)
    (w : World) :
    resolvedIds (tick spawn now w).2 =
      ((w.bombs.filter (dueAt now)).reverse).map Bomb.id := by
  simp only [tick]
  rw [resolvedIds_append, sweep_resolvedIds]
  simp [resolvedIds]

theorem sweep_bombs (spawn : Int × Int → Option (String × PowerUpType)) :
    ∀ (bl : List Bomb) (w : World) (dmg : List String),
      (sweep spawn bl w dmg).1.bombs =
        bl.foldl (fun bs b => markExploded bs b.id) w.bombs
  | [], _, _ => rfl
  | b :: rest, w, dmg => by
    simp only [sweep, List.foldl_cons]
    rw [sweep_bombs spawn rest]
    rfl

theorem foldl_markExploded :
    ∀ (bl : List Bomb) (bs : List Bomb),
      bl.foldl (fun acc b => markExploded acc b.id) bs =
        bs.map (fun b =>
          if (bl.map Bomb.id).contains b.id then
            { b with exploded := true } else b)
  | [], bs => by
    simp [List.map_id]
  | b :: bl, bs => by
    rw [List.foldl_cons, foldl_markExploded bl]
    unfold markExploded
    rw [List.map_map]
    refine List.map_congr_left ?_
    intro a _
    simp only [Function.comp_apply]
    by_cases hab : (a.id == b.id) = true
    · rw [if_pos hab]
      have hcont : (List.map Bomb.id (b :: bl)).contains a.id = true := by
        simp only [List.map_cons, List.contains_cons, hab, Bool.true_or]
      rw [if_pos hcont]
      split <;> rfl
    · rw [if_neg hab]
      have hne : ¬ a.id = b.id := by simpa using hab
      simp [List.contains_cons, hne]

theorem filter_map_split {α : Type} (g : α → α) (p q : α → Bool) :
    ∀ l : List α,
      (∀ x ∈ l, (q x = true → g x = x ∧ p x = true) ∧
        (q x = false → p (g x) = false)) →
      (l.map g).filter p = l.filter q
  | [], _ => rfl
  | x :: t, h => by
    have hx := h x (List.mem_cons_self x t)
    have ht := filter_map_split g p q t
      (fun a ha => h a (List.mem_cons_of_mem x ha))
    cases hqx : q x
    · have hpg := hx.2 hqx
      simp [List.filter_cons, hpg, hqx, ht]
    · obtain ⟨hgx, hpx⟩ := hx.1 hqx
      simp [List.filter_cons, hgx, hpx, hqx, ht]

/-- After a tick, the world's bomb list is exactly the bombs whose
fuses had not yet elapsed: every due bomb was marked and spliced out. -/
theorem tick_bombs (spawn : Int × Int → Option (String × PowerUpType))
    (now : Int) (w : World)
    (hnodup : (w.bombs.map Bomb.id).Nodup)
    (hunexp : ∀ b ∈ w.bombs, b.exploded = false) :
    (tick spawn now w).1.bombs =
      w.bombs.filter (fun b => !(dueAt now b)) := by
  simp only [tick]
  rw [sweep_bombs, foldl_markExploded]
  refine filter_map_split _ _ _ w.bombs ?_
  intro b hb
  have hexp := hunexp b hb
  constructor
  · intro hq
    have hdue : dueAt now b = false := by
      cases hd : dueAt now b
      · rfl
      · rw [hd] at hq
        cases hq
    constructor
    · have hnotin :
          ((((w.bombs.filter (dueAt now)).reverse).map Bomb.id).contains
            b.id) = false := by
        cases hcon : (((w.bombs.filter (dueAt now)).reverse).map
            Bomb.id).contains b.id
        · rfl
        · exfalso
          have hmem : b.id ∈ ((w.bombs.filter (dueAt now)).reverse).map
              Bomb.id := by
            simpa using hcon
          obtain ⟨b2, hb2, hid⟩ := List.mem_map.mp hmem
          have hb2f : b2 ∈ w.bombs.filter (dueAt now) :=
            List.mem_reverse.mp hb2
          have hb2w : b2 ∈ w.bombs := (List.mem_filter.mp hb2f).1
          have hb2due : dueAt now b2 = true := (List.mem_filter.mp hb2f).2
          have hbeq : b2 = b :=
            List.inj_on_of_nodup_map hnodup hb2w hb hid
          rw [hbeq] at hb2due
          rw [hb2due] at hdue
          cases hdue
      rw [hnotin]
      simp
    · rw [hexp]
      rfl
  · intro hq
    have hdue : dueAt now b = true := by
      cases hd : dueAt now b
      · rw [hd] at hq
        cases hq
      · rfl
    have hmem : b.id ∈ (((w.bombs.filter (dueAt now)).reverse).map
        Bomb.id) :=
      List.mem_map_of_mem _ (List.mem_reverse.mpr
        (List.mem_filter.mpr ⟨hb, hdue⟩))
    have hcont : ((((w.bombs.filter (dueAt now)).reverse).map
        Bomb.id).contains b.id) = true := by
      simpa using hmem
    rw [hcont]
    simp

theorem markExploded_of_not_mem :
    ∀ (bs : List Bomb) (i : String), i ∉ bs.map Bomb.id →
      markExploded bs i = bs
  | [], _, _ => rfl
  | b :: t, i, h => by
    have h1 : i ∉ t.map Bomb.id := fun hm => h (by simp [hm])
    have h2 : ¬ b.id = i := fun he => h (by simp [he])
    have ih := markExploded_of_not_mem t i h1
    unfold markExploded at ih ⊢
    rw [List.map_cons, ih]
    simp [h2]

/-- Net effect of a chain callback on the bomb list (under unique
ids): mark the target and splice it out, i.e. drop the entry with the
target id. -/
theorem chain_bombs :
    ∀ (bs : List Bomb) (i : String), (bs.map Bomb.id).Nodup →
      (markExploded bs i).eraseP (fun b => b.id == i) =
        bs.filter (fun b => !(b.id == i))
  | [], _, _ => rfl
  | b :: t, i, hnd => by
    have hnd2 : (t.map Bomb.id).Nodup := (List.nodup_cons.mp (by
      simpa using hnd)).2
    have hbt : b.id ∉ t.map Bomb.id := (List.nodup_cons.mp (by
      simpa using hnd)).1
    by_cases hbi : (b.id == i) = true
    · have hbi2 : b.id = i := beq_iff_eq.mp hbi
      have hti : markExploded t i = t :=
        markExploded_of_not_mem t i (hbi2 ▸ hbt)
    -- head marked and erased; tail untouched on both sides
      unfold markExploded at hti ⊢
      rw [List.map_cons, hti]
      have hprb : (({ b with exploded := true } : Bomb).id == i) = true := hbi
      rw [if_pos hbi,
        @List.eraseP_cons_of_pos _ ({ b with exploded := true } : Bomb) t
          (fun b2 => b2.id == i) hprb,
        List.filter_cons_of_neg (by simp [hbi])]
      rw [List.filter_eq_self.mpr]
      intro a ha
      have : a.id ≠ i := fun he => (hbi2 ▸ hbt) (he ▸
        List.mem_map_of_mem Bomb.id ha)
      simp [this]
    · have ih := chain_bombs t i hnd2
      unfold markExploded at ih ⊢
      rw [List.map_cons]
      rw [if_neg hbi, List.eraseP_cons_of_neg (by simpa using hbi),
        List.filter_cons_of_pos (by simpa using hbi), ih]

/-! ## Lives across world events -/

/-- How one world event may change one combat state's lives: same
player, non-increasing, staying non-negative, and frozen at zero. -/
def LivesRel (p q : CombatPlayer) : Prop :=
  q.id = p.id ∧ q.lives ≤ p.lives ∧ (0 ≤ p.lives → 0 ≤ q.lives) ∧
  (p.lives = 0 → q.lives = 0)

theorem livesRel_refl (p : CombatPlayer) : LivesRel p p :=
  ⟨rfl, le_refl _, fun h => h, fun h => h⟩

theorem livesRel_trans {p q r : CombatPlayer} (h1 : LivesRel p q)
    (h2 : LivesRel q r) : LivesRel p r :=
  ⟨h2.1.trans h1.1, h2.2.1.trans h1.2.1,
   fun h => h2.2.2.1 (h1.2.2.1 h),
   fun h => h2.2.2.2 (h1.2.2.2 h)⟩

theorem forall2_mem_right {α β : Type} {R : α → β → Prop} :
    ∀ {l₁ : List α} {l₂ : List β}, List.Forall₂ R l₁ l₂ →
      ∀ b ∈ l₂, ∃ a ∈ l₁, R a b := by
  intro l₁ l₂ h
  induction h with
  | nil =>
    intro b hb
    cases hb
  | cons hab _ ih =>
    intro b hb
    rcases List.mem_cons.mp hb with hb | hb
    · exact ⟨_, List.mem_cons_self _ _, hb ▸ hab⟩
    · obtain ⟨a, ha, hr⟩ := ih b hb
      exact ⟨a, List.mem_cons_of_mem _ ha, hr⟩

theorem updatePlayerById_livesRel (ps : List CombatPlayer) (pid : String)
    (f : CombatPlayer → CombatPlayer)
    (hf : ∀ p, (f p).id = p.id ∧ (f p).lives = p.lives) :
    List.Forall₂ LivesRel ps (updatePlayerById ps pid f) := by
  unfold updatePlayerById
  rw [List.forall₂_map_right_iff, List.forall₂_same]
  intro p _
  by_cases hid : (p.id == pid) = true
  · rw [if_pos hid]
    exact ⟨(hf p).1, le_of_eq (hf p).2, fun h => (hf p).2 ▸ h,
      fun h => (hf p).2.trans h⟩
  · rw [if_neg hid]
    exact livesRel_refl p

theorem damagePass_livesRel (e : List (Int × Int))
    (ps : List CombatPlayer) (dmg : List String) :
    List.Forall₂ LivesRel ps (damagePass e ps dmg).1 := by
  refine (damagePass_entries e ps dmg).2.imp ?_
  intro p q hpq
  rcases hpq.2 with hsame | ⟨hl, hq, _, _⟩
  · subst hsame
    exact livesRel_refl _
  · subst hq
    exact ⟨rfl, by simp, fun _ => by simp; omega, fun h => absurd h (by omega)⟩

theorem tick_livesRel (spawn : Int × Int → Option (String × PowerUpType))
    (now : Int) (w : World) :
    List.Forall₂ LivesRel w.players (tick spawn now w).1.players := by
  have hinit : List.Forall₂ (DmgRel []) w.players w.players := by
    rw [List.forall₂_same]
    intro p _
    exact Or.inl rfl
  obtain ⟨_, hrel⟩ := sweep_invariant spawn
    ((w.bombs.filter (dueAt now)).reverse) w [] w.players hinit
  refine hrel.imp ?_
  intro p q hpq
  rcases hpq with hsame | ⟨hl, hq, _⟩
  · subst hsame
    exact livesRel_refl _
  · subst hq
    exact ⟨rfl, by simp, fun _ => by simp; omega, fun h => absurd h (by omega)⟩

theorem chain_livesRel (spawn : Int × Int → Option (String × PowerUpType))
    (w : World) (bombId : String) :
    List.Forall₂ LivesRel w.players
      (worldChainFire spawn w bombId).1.players := by
  unfold worldChainFire
  cases hf : w.bombs.find? (fun b => b.id == bombId && !b.exploded)
  · rw [List.forall₂_same]
    intro p _
    exact livesRel_refl p
  · exact damagePass_livesRel _ _ _

theorem checkPowerUp_effects (w : World) (pid : String) (x y : Rat) :
    (checkPowerUpCollection w pid x y).1.bombs = w.bombs ∧
    resolvedIds (checkPowerUpCollection w pid x y).2 = [] ∧
    List.Forall₂ LivesRel w.players
      (checkPowerUpCollection w pid x y).1.players := by
  have hrefl : List.Forall₂ LivesRel w.players w.players := by
    rw [List.forall₂_same]
    intro p _
    exact livesRel_refl p
  unfold checkPowerUpCollection
  cases hf : w.powerUps.find? (powerUpAtCell x y) with
  | none => exact ⟨rfl, rfl, hrefl⟩
  | some pu =>
    cases hl : lookupPlayer w pid with
    | none => exact ⟨rfl, rfl, hrefl⟩
    | some cs =>
      refine ⟨rfl, rfl, ?_⟩
      refine updatePlayerById_livesRel w.players pid _ ?_
      intro p
      cases pu.type <;> simp [applyPowerUp]

theorem handlePlayerMove_effects (w : World) (pid : String) (x y : Rat) :
    (handlePlayerMove w pid x y).1.bombs = w.bombs ∧
    resolvedIds (handlePlayerMove w pid x y).2 = [] ∧
    List.Forall₂ LivesRel w.players
      (handlePlayerMove w pid x y).1.players := by
  unfold handlePlayerMove
  cases hl : lookupPlayer w pid
  · refine ⟨rfl, rfl, ?_⟩
    rw [List.forall₂_same]
    intro p _
    exact livesRel_refl p
  · obtain ⟨hb, he, hrel⟩ := checkPowerUp_effects
      { w with players := updatePlayerById w.players pid
                            (fun p => { p with x := x, y := y }) }
      pid x y
    refine ⟨hb, ?_, ?_⟩
    · rw [resolvedIds_append, he]
      rfl
    · refine @forall2_trans CombatPlayer CombatPlayer CombatPlayer
        LivesRel LivesRel LivesRel
        (fun a b c hab hbc => livesRel_trans hab hbc)
        w.players
        (updatePlayerById w.players pid (fun p => { p with x := x, y := y }))
        ((checkPowerUpCollection
          { w with players := updatePlayerById w.players pid
                                (fun p => { p with x := x, y := y }) }
          pid x y).1.players)
        ?_ ?_
      · exact updatePlayerById_livesRel w.players pid
          (fun p => { p with x := x, y := y }) (fun p => ⟨rfl, rfl⟩)
      · exact hrel

/-- The serialized stream of world-mutating events after `startGame`,
together with the log of broadcasts: player moves (with power-up
collection), bomb placements (with ids fresh by construction —
`bomb-${Date.now()}-${randomness}`, and the spec's "opaque unique
id"), 100ms tick sweeps at arbitrary times, and 300ms chain callbacks
allowed at any moment with any target id — an over-approximation of
the real scheduler that only strengthens the safety results proved
over it. -/
inductive Reach (spawn : Int × Int → Option (String × PowerUpType)) :
    World → List Event → Prop
  | start (rand : Nat → Nat → Bool) (regs : List RegPlayer) :
      Reach spawn (initWorld rand regs) []
  | move (w : World) (log : List Event) (pid : String) (x y : Rat) :
      Reach spawn w log →
      Reach spawn (handlePlayerMove w pid x y).1
        (log ++ (handlePlayerMove w pid x y).2)
  | place (w : World) (log : List Event) (pid : String) (x y : Int)
      (bombId : String) (now : Int) (cs : CombatPlayer) :
      Reach spawn w log →
      lookupPlayer w pid = some cs →
      bombId ∉ w.bombs.map Bomb.id →
      bombId ∉ resolvedIds log →
      Reach spawn
        { w with bombs := w.bombs ++
            [{ id := bombId, playerId := pid, x := x, y := y,
               placedAt := now,
               explosionRange :=
                 if cs.explosionRange = 0 then 1 else cs.explosionRange,
               exploded := false }] }
        (log ++ [Event.bombPlaced
          { id := bombId, playerId := pid, x := x, y := y,
            placedAt := now,
            explosionRange :=
              if cs.explosionRange = 0 then 1 else cs.explosionRange,
            exploded := false }])
  | tickStep (w : World) (log : List Event) (now : Int) :
      Reach spawn w log →
      Reach spawn (tick spawn now w).1 (log ++ (tick spawn now w).2)
  | chainStep (w : World) (log : List Event) (bombId : String) :
      Reach spawn w log →
      Reach spawn (worldChainFire spawn w bombId).1
        (log ++ (worldChainFire spawn w bombId).2)

/-- The bomb bookkeeping invariant: live bombs have unique ids and are
unexploded, a live bomb has never been resolved, and no id has been
resolved twice. -/
def BombInv (w : World) (log : List Event) : Prop :=
  (w.bombs.map Bomb.id).Nodup ∧
  (∀ b ∈ w.bombs, b.exploded = false) ∧
  (∀ b ∈ w.bombs, b.id ∉ resolvedIds log) ∧
  (∀ i : String, (resolvedIds log).count i ≤ 1)

theorem reach_bombInv (spawn : Int × Int → Option (String × PowerUpType))
    (w : World) (log : List Event) (h : Reach spawn w log) :
    BombInv w log := by
  induction h with
  | start rand regs =>
    exact ⟨by simp [initWorld], by simp [initWorld], by simp [initWorld],
      by simp [resolvedIds]⟩
  | move w log pid x y _ ih =>
    obtain ⟨hnd, hux, hnr, hcnt⟩ := ih
    obtain ⟨hb, he, _⟩ := handlePlayerMove_effects w pid x y
    have hres : resolvedIds (log ++ (handlePlayerMove w pid x y).2) =
        resolvedIds log := by
      rw [resolvedIds_append, he, List.append_nil]
    rw [BombInv, hb, hres]
    exact ⟨hnd, hux, hnr, hcnt⟩
  | place w log pid x y bombId now cs _ hlook hfr1 hfr2 ih =>
    obtain ⟨hnd, hux, hnr, hcnt⟩ := ih
    have hres : resolvedIds (log ++ [Event.bombPlaced
        { id := bombId, playerId := pid, x := x, y := y, placedAt := now,
          explosionRange :=
            if cs.explosionRange = 0 then 1 else cs.explosionRange,
          exploded := false }]) = resolvedIds log := by
      rw [resolvedIds_append]
      simp [resolvedIds]
    refine ⟨?_, ?_, ?_, ?_⟩
    · simp only [List.map_append, List.map_cons, List.map_nil]
      rw [List.nodup_append]
      exact ⟨hnd, List.nodup_singleton _, by
        intro a ha hb2
        rcases List.mem_singleton.mp hb2 with heq
        exact hfr1 (heq ▸ ha)⟩
    · intro b hb2
      rcases List.mem_append.mp hb2 with hm | hm
      · exact hux b hm
      · rcases List.mem_singleton.mp hm with heq
        rw [heq]
    · intro b hb2
      rw [hres]
      rcases List.mem_append.mp hb2 with hm | hm
      · exact hnr b hm
      · rcases List.mem_singleton.mp hm with heq
        rw [heq]
        exact hfr2
    · intro i
      rw [hres]
      exact hcnt i
  | tickStep w log now _ ih =>
    obtain ⟨hnd, hux, hnr, hcnt⟩ := ih
    have hbombs := tick_bombs spawn now w hnd hux
    have hres : resolvedIds (log ++ (tick spawn now w).2) =
        resolvedIds log ++
          ((w.bombs.filter (dueAt now)).reverse).map Bomb.id := by
      rw [resolvedIds_append, tick_resolvedIds]
    have hnewnd : (((w.bombs.filter (dueAt now)).reverse).map Bomb.id).Nodup := by
      rw [List.map_reverse, List.nodup_reverse]
      exact hnd.sublist (List.Sublist.map Bomb.id (List.filter_sublist _))
    have hnewsub : ∀ i ∈ ((w.bombs.filter (dueAt now)).reverse).map Bomb.id,
        ∃ b2 ∈ w.bombs, b2.id = i ∧ dueAt now b2 = true := by
      intro i hi
      obtain ⟨b2, hb2, hid⟩ := List.mem_map.mp hi
      have hb2f := List.mem_reverse.mp hb2
      exact ⟨b2, (List.mem_filter.mp hb2f).1, hid, (List.mem_filter.mp hb2f).2⟩
    refine ⟨?_, ?_, ?_, ?_⟩
    · rw [hbombs]
      exact hnd.sublist (List.Sublist.map Bomb.id (List.filter_sublist _))
    · intro b hb2
      rw [hbombs] at hb2
      exact hux b (List.mem_filter.mp hb2).1
    · intro b hb2
      rw [hbombs] at hb2
      rw [hres]
      have hbw := (List.mem_filter.mp hb2).1
      have hbnd : (!(dueAt now b)) = true := (List.mem_filter.mp hb2).2
      intro hmem
      rcases List.mem_append.mp hmem with hm | hm
      · exact hnr b hbw hm
      · obtain ⟨b2, hb2w, hid, hb2due⟩ := hnewsub b.id hm
        have hbeq : b2 = b := List.inj_on_of_nodup_map hnd hb2w hbw hid
        rw [hbeq] at hb2due
        rw [hb2due] at hbnd
        cases hbnd
    · intro i
      rw [hres, List.count_append]
      by_cases hmem : i ∈ ((w.bombs.filter (dueAt now)).reverse).map Bomb.id
      · obtain ⟨b2, hb2w, hid, _⟩ := hnewsub i hmem
        have hold : (resolvedIds log).count i = 0 :=
          List.count_eq_zero.mpr (hid ▸ hnr b2 hb2w)
        have hnew : (((w.bombs.filter (dueAt now)).reverse).map
            Bomb.id).count i ≤ 1 :=
          List.nodup_iff_count_le_one.mp hnewnd i
        omega
      · have hnew : (((w.bombs.filter (dueAt now)).reverse).map
            Bomb.id).count i = 0 := List.count_eq_zero.mpr hmem
        have := hcnt i
        omega
  | chainStep w log bombId _ ih =>
    obtain ⟨hnd, hux, hnr, hcnt⟩ := ih
    cases hfind : w.bombs.find? (fun b => b.id == bombId && !b.exploded) with
    | none =>
      have hval : worldChainFire spawn w bombId = (w, []) := by
        unfold worldChainFire
        rw [hfind]
      rw [BombInv, hval, List.append_nil]
      exact ⟨hnd, hux, hnr, hcnt⟩
    | some bl =>
      have hblmem : bl ∈ w.bombs := List.mem_of_find?_eq_some hfind
      have hblpred := List.find?_some hfind
      have hblid : bl.id = bombId := by
        have := (Bool.and_eq_true _ _).mp hblpred
        exact beq_iff_eq.mp this.1
      have hval : worldChainFire spawn w bombId =
          ((explodeBomb spawn
            { w with bombs := (markExploded w.bombs bombId).eraseP
                                (fun b2 => b2.id == bombId) }
            { bl with exploded := true } []).world,
           (explodeBomb spawn
            { w with bombs := (markExploded w.bombs bombId).eraseP
                                (fun b2 => b2.id == bombId) }
            { bl with exploded := true } []).events) := by
        unfold worldChainFire
        rw [hfind]
      have hbombs : (worldChainFire spawn w bombId).1.bombs =
          w.bombs.filter (fun b => !(b.id == bombId)) := by
        rw [hval]
        show ((markExploded w.bombs bombId).eraseP
          (fun b2 => b2.id == bombId)) = _
        exact chain_bombs w.bombs bombId hnd
      have hres : resolvedIds (log ++ (worldChainFire spawn w bombId).2) =
          resolvedIds log ++ [bombId] := by
        rw [resolvedIds_append, hval]
        rw [explodeBomb_resolvedIds]
        rw [show ({ bl with exploded := true } : Bomb).id = bombId from hblid]
      refine ⟨?_, ?_, ?_, ?_⟩
      · rw [hbombs]
        exact hnd.sublist (List.Sublist.map Bomb.id (List.filter_sublist _))
      · intro b hb2
        rw [hbombs] at hb2
        exact hux b (List.mem_filter.mp hb2).1
      · intro b hb2
        rw [hbombs] at hb2
        rw [hres]
        have hbw := (List.mem_filter.mp hb2).1
        have hbne : (!(b.id == bombId)) = true := (List.mem_filter.mp hb2).2
        intro hmem
        rcases List.mem_append.mp hmem with hm | hm
        · exact hnr b hbw hm
        · rcases List.mem_singleton.mp hm with heq
          rw [heq] at hbne
          simp at hbne
      · intro i
        rw [hres, List.count_append]
        by_cases hi : i = bombId
        · have hold : (resolvedIds log).count i = 0 :=
            List.count_eq_zero.mpr (by
              rw [hi, ← hblid]
              exact hnr bl hblmem)
          have hnew : ([bombId].count i) ≤ 1 := by
            rw [hi]
            simp
          omega
        · have hnew : ([bombId].count i) = 0 :=
            List.count_eq_zero.mpr (by simp [hi])
          have := hcnt i
          omega

/-- C1: over every reachable interleaving of ticks, chain callbacks,
moves, and placements (no session reset), no bomb id is ever carried
by more than one `bomb-exploded` broadcast, and a bomb whose fuse has
elapsed is resolved by the very next tick sweep. -/
theorem bomb_resolved_exactly_once
    (spawn : Int × Int → Option (String × PowerUpType)) (w : World)
    (log : List Event) (h : Reach spawn w log) :
    (∀ i : String, (resolvedIds log).count i ≤ 1) ∧
    (∀ (now : Int) (b : Bomb), b ∈ w.bombs → dueAt now b = true →
      b.id ∈ resolvedIds (log ++ (tick spawn now w).2)) := by
  obtain ⟨_, _, _, hcnt⟩ := reach_bombInv spawn w log h
  refine ⟨hcnt, ?_⟩
  intro now b hb hdue
  rw [resolvedIds_append, tick_resolvedIds]
  refine List.mem_append.mpr (Or.inr ?_)
  exact List.mem_map_of_mem _ (List.mem_reverse.mpr
    (List.mem_filter.mpr ⟨hb, hdue⟩))

def exReg : RegPlayer :=
  { id := "r1", nickname := "Ana", ready := false, character := none }

def exCs : CombatPlayer :=
  { id := "r1", nickname := "Ana", x := 1, y := 1, lives := 3,
    maxBombs := 1, explosionRange := 1, speed := 1 }

def exNb : Bomb :=
  { id := "nb1", playerId := "r1", x := 1, y := 1, placedAt := 0,
    explosionRange :=
      if exCs.explosionRange = 0 then 1 else exCs.explosionRange,
    exploded := false }

theorem bomb_resolved_exactly_once_witness :
    (resolvedIds (([] ++ [Event.bombPlaced exNb]) ++
      (tick (fun _ => none) 9000
        { initWorld (fun _ _ => false) [exReg] with
            bombs := (initWorld (fun _ _ => false) [exReg]).bombs ++
              [exNb] }).2)).count "nb1" ≤ 1 := by
  have hr1 : Reach (fun _ => none)
      { initWorld (fun _ _ => false) [exReg] with
          bombs := (initWorld (fun _ _ => false) [exReg]).bombs ++ [exNb] }
      ([] ++ [Event.bombPlaced exNb]) :=
    Reach.place (initWorld (fun _ _ => false) [exReg]) [] "r1" 1 1 "nb1" 0
      exCs (Reach.start (fun _ _ => false) [exReg]) (by decide) (by decide)
      (by decide)
  have hr2 := Reach.tickStep _ _ 9000 hr1
  exact (bomb_resolved_exactly_once (fun _ => none) _ _ hr2).1 "nb1"

/-- C7 amended: over every reachable world, lives are never negative
(and never above the initial 3), and every further world event —
tick, chain callback, or move — keeps each combat state present with
the same id, with non-increasing lives, and with lives frozen once
they reach 0 (the `player.lives > 0` guard); the combat state is
*not* removed from the server's world (only the client's local
renderer deletes dead players). -/
theorem lives_monotone_invariant
    (spawn : Int × Int → Option (String × PowerUpType)) (w : World)
    (log : List Event) (h : Reach spawn w log) :
    (∀ p ∈ w.players, 0 ≤ p.lives ∧ p.lives ≤ 3) ∧
    (∀ now, List.Forall₂ LivesRel w.players (tick spawn now w).1.players) ∧
    (∀ bombId, List.Forall₂ LivesRel w.players
      (worldChainFire spawn w bombId).1.players) ∧
    (∀ (pid : String) (x y : Rat), List.Forall₂ LivesRel w.players
      (handlePlayerMove w pid x y).1.players) := by
  have hbound : ∀ p ∈ w.players, 0 ≤ p.lives ∧ p.lives ≤ 3 := by
    induction h with
    | start rand regs =>
      intro p hp
      simp only [initWorld] at hp
      obtain ⟨rc, _, hrc⟩ := List.mem_map.mp hp
      rw [← hrc]
      exact ⟨by norm_num, by norm_num⟩
    | move w log pid x y _ ih =>
      intro p hp
      obtain ⟨_, _, hrel⟩ := handlePlayerMove_effects w pid x y
      obtain ⟨q, hq, hlr⟩ := forall2_mem_right hrel p hp
      obtain ⟨h0, h3⟩ := ih q hq
      exact ⟨hlr.2.2.1 h0, hlr.2.1.trans h3⟩
    | place w log pid x y bombId now cs _ _ _ _ ih =>
      intro p hp
      exact ih p hp
    | tickStep w log now _ ih =>
      intro p hp
      obtain ⟨q, hq, hlr⟩ := forall2_mem_right (tick_livesRel spawn now w) p hp
      obtain ⟨h0, h3⟩ := ih q hq
      exact ⟨hlr.2.2.1 h0, hlr.2.1.trans h3⟩
    | chainStep w log bombId _ ih =>
      intro p hp
      obtain ⟨q, hq, hlr⟩ :=
        forall2_mem_right (chain_livesRel spawn w bombId) p hp
      obtain ⟨h0, h3⟩ := ih q hq
      exact ⟨hlr.2.2.1 h0, hlr.2.1.trans h3⟩
  exact ⟨hbound, fun now => tick_livesRel spawn now w,
    fun i => chain_livesRel spawn w i,
    fun pid x y => (handlePlayerMove_effects w pid x y).2.2⟩

theorem lives_monotone_invariant_witness :
    0 ≤ exCs.lives ∧ exCs.lives ≤ 3 :=
  (lives_monotone_invariant (fun _ => none) _ _
    (Reach.start (fun _ _ => false) [exReg])).1 exCs (by decide)

/-- A mid-match world holding an eliminated player (0 lives) and one
live player, with a due bomb about to be resolved. -/
def exW7 : World :=
  { map := generateMap 15 (fun _ _ => false),
    players := [{ id := "p0", nickname := "Ana", x := 5, y := 5,
                  lives := 0, maxBombs := 1, explosionRange := 1,
                  speed := 1 },
                { id := "p2", nickname := "Bo", x := 12, y := 12,
                  lives := 3, maxBombs := 1, explosionRange := 1,
                  speed := 1 }],
    bombs := [{ id := "b1", playerId := "p2", x := 2, y := 1,
                placedAt := 0, explosionRange := 1, exploded := false }],
    powerUps := [] }

/-- C7 counterexample: a tick resolves a bomb (a full resolution
pass), yet the 0-lives combat state is still in the world afterwards —
the server never removes eliminated players. -/
theorem dead_player_not_removed :
    exW7.players.countP (fun p => decide (p.lives = 0)) = 1 ∧
    resolvedIds (tick (fun _ => none) 3000 exW7).2 = ["b1"] ∧
    ((tick (fun _ => none) 3000 exW7).1.players.map CombatPlayer.id) =
      ["p0", "p2"] ∧
    (tick (fun _ => none) 3000 exW7).1.players.countP
      (fun p => decide (p.lives = 0)) = 1 := by
  refine ⟨by decide, by decide, by decide, by decide⟩

end Bomberman
